import Mathlib

/-!
# waf-cf-ipset: reconciliation of a WAF Regional IP set with the CloudFront prefixes

A shallow embedding of `waf/client.go` and `cmd/waf-cf-ipset/main.go`.

* Go strings are Lean strings; the byte sequence of a Go string is the
  character list of the Lean string.
* A Go `error` value is `Option GoError` (`none` is `nil`).
* The remote WAF Regional endpoint is an arbitrary deterministic function of
  the history of requests sent so far (`Service`).  The SDK client in front
  of it validates the input of an operation and sends the request only when
  the input is valid (`WAFRegional_UpdateIPSet`, `WAFRegional_GetIPSet`).
  Every client method threads the history explicitly, so "which requests were
  sent, in which order, with which arguments" is a value one can state
  theorems about.
* `log.Println` / `fmt.Println` output is not part of the model; `log.Fatal`
  ends the run and is the `Exit.Fatal` outcome of `main`.
-/

namespace WafCfIpset

/-! ## Go standard library: `strings` -/

/-- The scan of `strings.Index` over byte sequences: the first position, counted
from `i`, at which `substr` starts inside `s`; `-1` when there is none. -/
def indexFrom (substr : List Char) : List Char → Nat → Int
  | [], i => if substr.isEmpty then (i : Int) else -1
  | c :: cs, i => if substr.isPrefixOf (c :: cs) then (i : Int) else indexFrom substr cs (i + 1)

/-- Go `strings.Index(s, substr)`. -/
def Index (s substr : String) : Int := indexFrom substr.data s.data 0

/-- Go `strings.Contains(s, substr)`: `Index(s, substr) >= 0`. -/
def Contains (s substr : String) : Bool := decide (Index s substr ≥ 0)

/-- Go `strings.Join(elems, sep)`: the elements concatenated with `sep` between
consecutive ones; the empty string for no element. -/
def Join : List String → String → String
  | [], _ => ""
  | e :: rest, sep => rest.foldl (fun b s => b ++ sep ++ s) e

/-! ## Go errors: `error`, `github.com/pkg/errors`, `awserr`, `net.ParseError` -/

/-- The error values that occur in the program.

* `awserr` is any value that implements the SDK interface `awserr.Error`,
  given by what its methods `Error()`, `Code()` and `Message()` return;
* `generic` is any other error value coming from outside (transport,
  credentials, ...), given by its `Error()` text;
* `fundamental` is the result of `errors.New` of `github.com/pkg/errors`;
* `wrapped` is the result of `errors.Wrap(cause, msg)` (the recorded stack
  trace is not modelled);
* `parseError` is `*net.ParseError`. -/
inductive GoError where
  | awserr (text code message : String)
  | generic (text : String)
  | fundamental (msg : String)
  | wrapped (cause : GoError) (msg : String)
  | parseError (type_ text : String)
  deriving DecidableEq, Repr

namespace GoError

/-- The method `Error()` of an error value. -/
def Error : GoError → String
  | awserr text _ _ => text
  | generic text => text
  | fundamental msg => msg
  | wrapped cause msg => msg ++ ": " ++ Error cause
  | parseError type_ text => "invalid " ++ type_ ++ ": " ++ text

/-- The function `errors.Cause`: unwrap down to the innermost cause. -/
def Cause : GoError → GoError
  | wrapped cause _ => Cause cause
  | e => e

end GoError

/-- The function `errors.New(message)`. -/
def errorsNew (message : String) : Option GoError := some (GoError.fundamental message)

/-- The function `errors.Wrap(err, message)`: `nil` for a `nil` error. -/
def errorsWrap (err : Option GoError) (message : String) : Option GoError :=
  match err with
  | none => none
  | some e => some (GoError.wrapped e message)

/-! ## Go standard library: `net` (address and CIDR parsing)

The functions below follow the implementation of package `net` that is
contemporary with the repository (`parseIPv4`, `parseIPv6`, `dtoi`, `xtoi`,
`CIDRMask`, `IPMask.Size`, `IP.Mask`, `ParseCIDR`).  An `IP` or an `IPMask`
is its list of bytes; a `nil` slice is the empty list. -/

/-- The bound `big` of the number scanners of package `net`. -/
def big : Nat := 0xFFFFFF

def IPv4len : Nat := 4

def IPv6len : Nat := 16

/-- The digit loop of `dtoi`: value so far `n`, characters consumed `i`. -/
def dtoiLoop : List Char → Nat → Nat → Nat × Nat × Bool
  | [], n, i => (n, i, true)
  | c :: cs, n, i =>
    if '0' ≤ c ∧ c ≤ '9' then
      let n1 := n * 10 + (c.toNat - '0'.toNat)
      if n1 ≥ big then (big, i, false) else dtoiLoop cs n1 (i + 1)
    else (n, i, true)

/-- The function `dtoi`: decimal to integer; returns number, characters
consumed, success. -/
def dtoi (s : List Char) : Nat × Nat × Bool :=
  match dtoiLoop s 0 0 with
  | (n, i, false) => (n, i, false)
  | (n, i, true) => if i = 0 then (0, 0, false) else (n, i, true)

/-- The digit loop of `xtoi`. -/
def xtoiLoop : List Char → Nat → Nat → Nat × Nat × Bool
  | [], n, i => (n, i, true)
  | c :: cs, n, i =>
    if '0' ≤ c ∧ c ≤ '9' then
      let n1 := n * 16 + (c.toNat - '0'.toNat)
      if n1 ≥ big then (0, i, false) else xtoiLoop cs n1 (i + 1)
    else if 'a' ≤ c ∧ c ≤ 'f' then
      let n1 := n * 16 + (c.toNat - 'a'.toNat) + 10
      if n1 ≥ big then (0, i, false) else xtoiLoop cs n1 (i + 1)
    else if 'A' ≤ c ∧ c ≤ 'F' then
      let n1 := n * 16 + (c.toNat - 'A'.toNat) + 10
      if n1 ≥ big then (0, i, false) else xtoiLoop cs n1 (i + 1)
    else (n, i, true)

/-- The function `xtoi`: hexadecimal to integer; returns number, characters
consumed, success. -/
def xtoi (s : List Char) : Nat × Nat × Bool :=
  match xtoiLoop s 0 0 with
  | (n, i, false) => (n, i, false)
  | (n, i, true) => if i = 0 then (0, i, false) else (n, i, true)

/-- The prefix of an IPv4 address in its 16-byte form. -/
def v4InV6Prefix : List Nat := [0, 0, 0, 0, 0, 0, 0, 0, 0, 0, 0xff, 0xff]

/-- The octet loop of `parseIPv4`: `k` octets still to read, `i` the index of
the next one, `p` the octets read so far. -/
def parseIPv4Loop : Nat → Nat → List Char → List Nat → Option (List Nat × List Char)
  | 0, _, s, p => some (p, s)
  | k + 1, i, s, p =>
    if s.isEmpty then none
    else
      let afterDot : Option (List Char) :=
        if i > 0 then
          match s with
          | '.' :: t => some t
          | _ => none
        else some s
      match afterDot with
      | none => none
      | some s1 =>
        match dtoi s1 with
        | (n, c, ok) =>
          if !ok || n > 0xFF then none
          else parseIPv4Loop k (i + 1) (s1.drop c) (p ++ [n])

/-- The function `parseIPv4`: an address `d.d.d.d`, returned in 16-byte form. -/
def parseIPv4 (s : List Char) : Option (List Nat) :=
  match parseIPv4Loop IPv4len 0 s [] with
  | some (p, []) => some (v4InV6Prefix ++ p)
  | _ => none

/-- The main loop of `parseIPv6`: hex groups separated by colons.  The bytes
stored so far are `ip` (so the index `i` of the Go loop is `ip.length`),
`ellipsis` is the position of `::` when one was seen.  Returns the bytes, the
ellipsis and the unread rest of the input. -/
def parseIPv6Loop : Nat → List Char → List Nat → Option Nat →
    Option (List Nat × Option Nat × List Char)
  | 0, s, ip, ellipsis => some (ip, ellipsis, s)
  | fuel + 1, s, ip, ellipsis =>
    if ip.length < IPv6len then
      match xtoi s with
      | (n, c, ok) =>
        if !ok || n > 0xFFFF then none
        else if c < s.length && s.get? c == some '.' then
          if ellipsis.isNone && ip.length != IPv6len - IPv4len then none
          else if ip.length + IPv4len > IPv6len then none
          else
            match parseIPv4 s with
            | none => none
            | some ip4 => some (ip ++ ip4.drop 12, ellipsis, [])
        else
          let ip1 := ip ++ [n / 256, n % 256]
          match s.drop c with
          | [] => some (ip1, ellipsis, [])
          | [_] => none
          | ':' :: ':' :: s3 =>
            if ellipsis.isSome then none
            else if s3.isEmpty then some (ip1, some ip1.length, [])
            else parseIPv6Loop fuel s3 ip1 (some ip1.length)
          | ':' :: s2 => parseIPv6Loop fuel s2 ip1 ellipsis
          | _ => none
    else some (ip, ellipsis, s)

/-- The function `parseIPv6` (without zone): a literal IPv6 address, 16 bytes. -/
def parseIPv6 (s : List Char) : Option (List Nat) :=
  let start : List Char × Option Nat :=
    match s with
    | ':' :: ':' :: t => (t, some 0)
    | _ => (s, none)
  if start.2.isSome && start.1.isEmpty then some (List.replicate IPv6len 0)
  else
    match parseIPv6Loop IPv6len start.1 [] start.2 with
    | none => none
    | some (ip, ellipsis, rest) =>
      if !rest.isEmpty then none
      else if ip.length < IPv6len then
        match ellipsis with
        | none => none
        | some e => some (ip.take e ++ List.replicate (IPv6len - ip.length) 0 ++ ip.drop e)
      else if ellipsis.isSome then none
      else some ip

/-- The byte loop of `CIDRMask`: `l` bytes to fill, `n` one-bits still to place. -/
def cidrMaskLoop : Nat → Nat → List Nat
  | 0, _ => []
  | l + 1, n =>
    if n ≥ 8 then 0xff :: cidrMaskLoop l (n - 8)
    else (0xff - (0xff >>> n)) :: cidrMaskLoop l 0

/-- The function `CIDRMask(ones, bits)`: `ones` one-bits followed by zero-bits,
`bits` bits in all; `nil` when the arguments are out of range. -/
def CIDRMask (ones bits : Nat) : List Nat :=
  if bits ≠ 8 * IPv4len ∧ bits ≠ 8 * IPv6len then []
  else if ones > bits then []
  else cidrMaskLoop (bits / 8) ones

/-- The inner loop of `simpleMaskLen` on the first byte that is not `0xff`:
count its leading one-bits, shifting them out; returns the count and what is
left of the byte. -/
def leadingOnes : Nat → Nat → Nat × Nat
  | 0, v => (0, v)
  | fuel + 1, v =>
    if v &&& 0x80 ≠ 0 then
      let r := leadingOnes fuel ((v <<< 1) % 256)
      (r.1 + 1, r.2)
    else (0, v)

/-- The function `simpleMaskLen`: the number of leading ones of a mask made of
ones followed by zeros, `-1` for any other mask. -/
def simpleMaskLen : List Nat → Int
  | [] => 0
  | v :: rest =>
    if v = 0xff then
      let r := simpleMaskLen rest
      if r = -1 then -1 else r + 8
    else
      let lo := leadingOnes 8 v
      if lo.2 ≠ 0 then -1
      else if rest.any (fun b => b != 0) then -1
      else (lo.1 : Int)

/-- The method `IPMask.Size()`: `(ones, bits)`, or `(0, 0)` for a mask that is
not in canonical form. -/
def IPMask_Size (m : List Nat) : Int × Int :=
  let ones := simpleMaskLen m
  if ones = -1 then (0, 0) else (ones, (m.length : Int) * 8)

/-- The method `IP.Mask(mask)`. -/
def IP_Mask (ip mask : List Nat) : List Nat :=
  let mask1 := if mask.length = IPv6len ∧ ip.length = IPv4len ∧ (mask.take 12).all (fun b => b == 0xff)
    then mask.drop 12 else mask
  let ip1 := if mask1.length = IPv4len ∧ ip.length = IPv6len ∧ ip.take 12 = v4InV6Prefix
    then ip.drop 12 else ip
  if ip1.length ≠ mask1.length then []
  else List.zipWith (fun a b => a &&& b) ip1 mask1

/-- The type `net.IPNet`. -/
structure IPNet where
  IP : List Nat
  Mask : List Nat
  deriving DecidableEq, Repr

/-- Split at the first `/` (`byteIndex(s, '/')`): the text before it and the
text after it, `none` when there is no `/`. -/
def splitSlash : List Char → Option (List Char × List Char)
  | [] => none
  | c :: cs =>
    if c = '/' then some ([], cs)
    else
      match splitSlash cs with
      | none => none
      | some (a, m) => some (c :: a, m)

/-- The function `net.ParseCIDR(s)`: the address, the network, or a
`*net.ParseError`. -/
def ParseCIDR (s : String) : Except GoError (List Nat × IPNet) :=
  let failure : Except GoError (List Nat × IPNet) :=
    .error (GoError.parseError "CIDR address" s)
  match splitSlash s.data with
  | none => failure
  | some (addr, mask) =>
    let parsed : Option (List Nat) × Nat :=
      match parseIPv4 addr with
      | some ip => (some ip, IPv4len)
      | none => (parseIPv6 addr, IPv6len)
    match parsed.1, dtoi mask with
    | some ip, (n, i, ok) =>
      if !ok || i ≠ mask.length || n > 8 * parsed.2 then failure
      else
        let m := CIDRMask n (8 * parsed.2)
        .ok (ip, { IP := IP_Mask ip m, Mask := m })
    | none, _ => failure

/-! ## AWS SDK: the types of `service/waf` and the remote endpoint -/

/-- The SDK constants `waf.ChangeActionInsert` and `waf.ChangeActionDelete`. -/
inductive ChangeAction where
  | Insert
  | Delete
  deriving DecidableEq, Repr

/-- The SDK constants `wafregional.IPSetDescriptorTypeIpv4` and
`wafregional.IPSetDescriptorTypeIpv6`. -/
inductive IPSetDescriptorType where
  | Ipv4
  | Ipv6
  deriving DecidableEq, Repr

/-- The type `waf.IPSetDescriptor`. -/
structure IPSetDescriptor where
  Type_ : IPSetDescriptorType
  Value : String
  deriving DecidableEq, Repr

/-- The type `waf.IPSetUpdate`. -/
structure IPSetUpdate where
  Action : ChangeAction
  Descriptor : IPSetDescriptor
  deriving DecidableEq, Repr

/-- The type `waf.UpdateIPSetInput`. -/
structure UpdateIPSetInput where
  ChangeToken : String
  IPSetId : String
  Updates : List IPSetUpdate
  deriving DecidableEq, Repr

/-- The type `waf.GetIPSetInput`. -/
structure GetIPSetInput where
  IPSetId : String
  deriving DecidableEq, Repr

/-- One request the SDK client accepted and sent towards the remote endpoint.
A failure on the way (credentials, transport) is one of the error answers of
`Service`; a request the SDK retries counts once. -/
inductive Call where
  | GetChangeToken
  | GetIPSet (input : GetIPSetInput)
  | UpdateIPSet (input : UpdateIPSetInput)
  deriving DecidableEq, Repr

/-- The requests sent so far, oldest first. -/
abbrev History := List Call

/-- The remote endpoint behind `*wafregional.WAFRegional`: what each operation
answers, given the requests that were sent before it.  `GetChangeToken`
answers a token or an error, `GetIPSet` the descriptors of the set or an
error, `UpdateIPSet` an error or `nil`.  Only a request the SDK client has
accepted reaches it (`WAFRegional_UpdateIPSet`, `WAFRegional_GetIPSet`). -/
structure Service where
  GetChangeToken : History → Except GoError String
  GetIPSet : History → GetIPSetInput → Except GoError (List IPSetDescriptor)
  UpdateIPSet : History → UpdateIPSetInput → Option GoError

/-! ### The SDK client in front of the endpoint

An operation of `*wafregional.WAFRegional` first validates its input
(`Validate()` of the input type) and sends the request only when the input
is valid; an invalid input gives the error `request.ErrInvalidParams`, whose
code is `InvalidParameter`, and nothing is sent. -/

/-- The error `request.ErrInvalidParams` for the fields of `context` that are
shorter than their minimum size 1: code `InvalidParameter`, message
`N validation error(s) found.`, and as text the code, the message and one line
for each field. -/
def invalidParams (context : String) (fields : List String) : GoError :=
  GoError.awserr
    (fields.foldl
      (fun w f => w ++ "- minimum field size of 1, " ++ context ++ "." ++ f ++ ".\n")
      ("InvalidParameter: " ++ toString fields.length ++ " validation error(s) found.\n"))
    "InvalidParameter"
    (toString fields.length ++ " validation error(s) found.")

/-- The method `UpdateIPSetInput.Validate()`: `ChangeToken`, `IPSetId` and
`Updates` have minimum size 1.  The checks on the elements of `Updates`
(fields that are set, a non-empty `Value`) are left out: every update the
program builds has all its fields and a non-empty value
(`insertBatch_value_ne`, `deleteIPList_value_ne`). -/
def UpdateIPSetInput.Validate (s : UpdateIPSetInput) : Option GoError :=
  let invalid : List String :=
    (if s.ChangeToken.length < 1 then ["ChangeToken"] else [])
      ++ (if s.IPSetId.length < 1 then ["IPSetId"] else [])
      ++ (if s.Updates.length < 1 then ["Updates"] else [])
  if invalid.length > 0 then some (invalidParams "UpdateIPSetInput" invalid) else none

/-- The method `GetIPSetInput.Validate()`: `IPSetId` has minimum size 1. -/
def GetIPSetInput.Validate (s : GetIPSetInput) : Option GoError :=
  let invalid : List String := if s.IPSetId.length < 1 then ["IPSetId"] else []
  if invalid.length > 0 then some (invalidParams "GetIPSetInput" invalid) else none

/-- The SDK operation `GetChangeToken` (its input has no field): the request
is sent and the answer of the endpoint returned. -/
def WAFRegional_GetChangeToken (endpoint : Service) (h : History) :
    Except GoError String × History :=
  (endpoint.GetChangeToken h, h ++ [Call.GetChangeToken])

/-- The SDK operation `GetIPSet`: an invalid input is refused without a
request; a valid one is sent and the answer of the endpoint returned. -/
def WAFRegional_GetIPSet (endpoint : Service) (input : GetIPSetInput) (h : History) :
    Except GoError (List IPSetDescriptor) × History :=
  match input.Validate with
  | some err => (.error err, h)
  | none => (endpoint.GetIPSet h input, h ++ [Call.GetIPSet input])

/-- The SDK operation `UpdateIPSet`: an invalid input is refused without a
request; a valid one is sent and the answer of the endpoint returned. -/
def WAFRegional_UpdateIPSet (endpoint : Service) (input : UpdateIPSetInput) (h : History) :
    Option GoError × History :=
  match input.Validate with
  | some err => (some err, h)
  | none => (endpoint.UpdateIPSet h input, h ++ [Call.UpdateIPSet input])

/-- The SDK constants `wafregional.ErrCodeWAF...Exception` used by `checkErr`. -/
def ErrCodeWAFStaleDataException : String := "WAFStaleDataException"

def ErrCodeWAFInternalErrorException : String := "WAFInternalErrorException"

def ErrCodeWAFInvalidAccountException : String := "WAFInvalidAccountException"

def ErrCodeWAFInvalidOperationException : String := "WAFInvalidOperationException"

def ErrCodeWAFInvalidParameterException : String := "WAFInvalidParameterException"

def ErrCodeWAFNonexistentContainerException : String := "WAFNonexistentContainerException"

def ErrCodeWAFNonexistentItemException : String := "WAFNonexistentItemException"

def ErrCodeWAFReferencedItemException : String := "WAFReferencedItemException"

def ErrCodeWAFLimitsExceededException : String := "WAFLimitsExceededException"

/-! ## `waf/client.go` -/

def CiderMaskSupportMin : Int := 16

def CiderMaskSupportMax : Int := 32

/-- The type `Client`; `service` is the endpoint its SDK client talks to. -/
structure Client where
  ipSetID : String
  service : Service

/-- The function `NewClient`; the endpoint the SDK session connects to is the
parameter `svc`. -/
def NewClient (svc : Service) (id : String) : Client :=
  { ipSetID := id, service := svc }

/-- The method `Client.getChangeToken`: one `GetChangeToken` call of the SDK;
the token or the error. -/
def Client.getChangeToken (c : Client) (h : History) : Except GoError String × History :=
  match WAFRegional_GetChangeToken c.service h with
  | (.error err, h1) => (.error err, h1)
  | (.ok token, h1) => (.ok token, h1)

/-- The method `Client.GetIPSet`: one `GetIPSet` call of the SDK; the values of
the descriptors of the set, in order, or the error. -/
def Client.GetIPSet (c : Client) (h : History) : Except GoError (List String) × History :=
  let input : GetIPSetInput := { IPSetId := c.ipSetID }
  match WAFRegional_GetIPSet c.service input h with
  | (.error err, h1) => (.error err, h1)
  | (.ok descriptors, h1) =>
    (.ok (descriptors.foldl (fun ips ipSet => ips ++ [ipSet.Value]) []), h1)

/-- The function `deleteIPList`: walk `useIps`, skip every entry that
`strings.Contains(s, ip)` finds in `s`, append a Delete update for each other. -/
def deleteIPList (s : String) (useIps : List String) : List IPSetUpdate :=
  useIps.foldl
    (fun ipSet ip =>
      if Contains s ip then ipSet
      else ipSet ++ [{ Action := ChangeAction.Delete,
                       Descriptor := { Type_ := IPSetDescriptorType.Ipv4, Value := ip } }])
    []

/-- The function `checkErr`. -/
def checkErr (err : Option GoError) : Option GoError :=
  match err with
  | some (GoError.awserr text code message) =>
    if code = ErrCodeWAFStaleDataException then
      errorsWrap err ErrCodeWAFStaleDataException
    else if code = ErrCodeWAFInternalErrorException then
      errorsWrap err ErrCodeWAFInternalErrorException
    else if code = ErrCodeWAFInvalidAccountException then
      errorsWrap err ErrCodeWAFInvalidAccountException
    else if code = ErrCodeWAFInvalidOperationException then
      errorsWrap err ErrCodeWAFInvalidOperationException
    else if code = ErrCodeWAFInvalidParameterException then
      errorsWrap err ErrCodeWAFInvalidParameterException
    else if code = ErrCodeWAFNonexistentContainerException then
      errorsWrap err ErrCodeWAFNonexistentContainerException
    else if code = ErrCodeWAFNonexistentItemException then
      errorsWrap err ErrCodeWAFNonexistentItemException
    else if code = ErrCodeWAFReferencedItemException then
      errorsWrap err ErrCodeWAFReferencedItemException
    else if code = ErrCodeWAFLimitsExceededException then
      errorsWrap err ErrCodeWAFLimitsExceededException
    else some (GoError.awserr text code message)
  | some e => some e
  | none => none

/-- The method `Client.DeleteIPSet`. -/
def Client.DeleteIPSet (c : Client) (s : String) (ipSets : List String) (h : History) :
    Option GoError × History :=
  let updates := deleteIPList s ipSets
  if updates.length = 0 then (none, h)
  else
    match c.getChangeToken h with
    | (.error err, h1) => (some err, h1)
    | (.ok token, h1) =>
      let input : UpdateIPSetInput :=
        { ChangeToken := token, IPSetId := c.ipSetID, Updates := updates }
      match WAFRegional_UpdateIPSet c.service input h1 with
      | (err, h2) =>
        match checkErr err with
        | some err1 => (some err1, h2)
        | none => (none, h2)

/-- The `for _, ip := range ips` loop of `Client.InsertIPSet`: the updates
collected so far are `updates`; a parse failure returns its error at once, an
entry whose mask length is outside the supported window is skipped. -/
def insertLoop : List String → List IPSetUpdate → Except GoError (List IPSetUpdate)
  | [], updates => .ok updates
  | ip :: rest, updates =>
    match ParseCIDR ip with
    | .error err => .error err
    | .ok (_, ipNet) =>
      let mask := (IPMask_Size ipNet.Mask).1
      if mask < CiderMaskSupportMin ∨ mask > CiderMaskSupportMax then insertLoop rest updates
      else
        insertLoop rest
          (updates ++ [{ Action := ChangeAction.Insert,
                         Descriptor := { Type_ := IPSetDescriptorType.Ipv4, Value := ip } }])

/-- The method `Client.InsertIPSet`. -/
def Client.InsertIPSet (c : Client) (ips : List String) (h : History) :
    Option GoError × History :=
  if ips.length = 0 then (errorsNew "insert ip set field size of 0", h)
  else
    match c.getChangeToken h with
    | (.error err, h1) => (some err, h1)
    | (.ok token, h1) =>
      match insertLoop ips [] with
      | .error err => (some err, h1)
      | .ok updates =>
        let input : UpdateIPSetInput :=
          { ChangeToken := token, IPSetId := c.ipSetID, Updates := updates }
        match WAFRegional_UpdateIPSet c.service input h1 with
        | (err, h2) =>
          match checkErr err with
          | some err1 => (some err1, h2)
          | none => (none, h2)

/-! ## `cmd/waf-cf-ipset/main.go` -/

def TargetService : String := "CLOUDFRONT"

/-- One element of `AWSIPRange.Prefixes`. -/
structure Prefix where
  IPPrefix : String
  Region : String
  Service : String
  deriving DecidableEq, Repr

/-- The type `AWSIPRange`. -/
structure AWSIPRange where
  SyncToken : String
  CreateDate : String
  Prefixes : List Prefix
  deriving DecidableEq, Repr

/-- The method `AWSIPRange.filterIPAddressesFromService`. -/
def AWSIPRange.filterIPAddressesFromService (a : AWSIPRange) (service : String) : List String :=
  a.Prefixes.foldl
    (fun ips p => if p.Service = service then ips ++ [p.IPPrefix] else ips)
    []

/-- How a run of `main` ends: it reaches `done!!!`, or `log.Fatal(v)` ends the
process (`v` is the text that is logged). -/
inductive Exit where
  | Done
  | Fatal (v : String)
  deriving DecidableEq, Repr

/-- The function `main`.  Its surroundings are parameters: `svc` is the remote
WAF endpoint, `IPSETID` the value of the environment variable, `resp` the
outcome of the HTTP request (its outer error is the one of `client.Do`, the
inner one the one of `decodeBody`).  The result is the way the run ends and
the requests that were sent to the endpoint. -/
def main (svc : Service) (IPSETID : String)
    (resp : Except GoError (Except GoError AWSIPRange)) : Exit × History :=
  let id := IPSETID
  if id = "" then (Exit.Fatal "missing env IPSETID", [])
  else
    match resp with
    | .error err => (Exit.Fatal err.Error, [])
    | .ok (.error err) => (Exit.Fatal err.Error, [])
    | .ok (.ok ipRange) =>
      let cfIP := ipRange.filterIPAddressesFromService TargetService
      let wafClient := NewClient svc id
      match wafClient.InsertIPSet cfIP [] with
      | (some err, h1) => (Exit.Fatal err.Error, h1)
      | (none, h1) =>
        match wafClient.GetIPSet h1 with
        | (.error err, h2) => (Exit.Fatal err.Error, h2)
        | (.ok useIP, h2) =>
          match wafClient.DeleteIPSet (Join cfIP "|") useIP h2 with
          | (some err, h3) => (Exit.Fatal err.Error, h3)
          | (none, h3) => (Exit.Done, h3)

/-! ## Reference notions the claims are stated with -/

/-- The prefix length the Insert loop computes for an entry: the `mask` of
`mask, _ := ipNet.Mask.Size()` when `net.ParseCIDR` accepts the entry, nothing
when it rejects it. -/
def prefixLen (ip : String) : Option Int :=
  match ParseCIDR ip with
  | .error _ => none
  | .ok (_, ipNet) => some (IPMask_Size ipNet.Mask).1

/-- The entry has a prefix length `n` with `16 ≤ n ≤ 32`. -/
def inWindow (ip : String) : Bool :=
  match prefixLen ip with
  | none => false
  | some n => decide (16 ≤ n ∧ n ≤ 32)

/-- The update that inserts the entry `ip`. -/
def insertOf (ip : String) : IPSetUpdate :=
  { Action := ChangeAction.Insert, Descriptor := { Type_ := IPSetDescriptorType.Ipv4, Value := ip } }

/-- The update that deletes the entry `ip`. -/
def deleteOf (ip : String) : IPSetUpdate :=
  { Action := ChangeAction.Delete, Descriptor := { Type_ := IPSetDescriptorType.Ipv4, Value := ip } }

/-- The Insert batch in the words of the specification: the entries of
`desired` whose prefix length is in the window, in the order of `desired`,
each as an Insert update of the unchanged string. -/
def insertBatchSpec (desired : List String) : List IPSetUpdate :=
  (desired.filter inWindow).map insertOf

/-- The text `sub` occurs as a contiguous substring of `s`. -/
def IsSubstring (sub s : String) : Prop := sub.data <:+: s.data

instance (sub s : String) : Decidable (IsSubstring sub s) :=
  inferInstanceAs (Decidable (sub.data <:+: s.data))

/-- The Delete batch in the words of the specification: the entries of
`current` that are not a substring of the joined string, in the order of
`current`, each as a Delete update of the unchanged string. -/
def deleteBatchSpec (s : String) (current : List String) : List IPSetUpdate :=
  (current.filter (fun ip => decide (¬ IsSubstring ip s))).map deleteOf

/-- The `UpdateIPSet` requests of a history, in order. -/
def updateCalls : History → List UpdateIPSetInput
  | [] => []
  | Call.UpdateIPSet input :: rest => input :: updateCalls rest
  | _ :: rest => updateCalls rest

/-- The number of `GetChangeToken` requests of a history. -/
def tokenCalls (h : History) : Nat := h.count Call.GetChangeToken

/-- The value of a non-empty text of decimal digits; nothing for any other
text. -/
def decimalValue (cs : List Char) : Option Nat :=
  if cs ≠ [] ∧ cs.all (fun c => decide ('0' ≤ c ∧ c ≤ '9')) = true then
    some (cs.foldl (fun n c => 10 * n + (c.toNat - '0'.toNat)) 0)
  else none

/-- The text after the first `/` of a text; nothing when it has no `/`. -/
def afterSlash : List Char → Option (List Char)
  | [] => none
  | c :: cs => if c = '/' then some cs else afterSlash cs

/-- The prefix length of an entry in the words of the specification: the
number `n` written after the `/` of `a.b.c.d/n`. -/
def writtenPrefixLen (ip : String) : Option Nat :=
  match afterSlash ip.data with
  | none => none
  | some digits => decimalValue digits

/-- The written prefix length `n` of the entry satisfies `16 ≤ n ≤ 32`. -/
def writtenInWindow (ip : String) : Bool :=
  match writtenPrefixLen ip with
  | none => false
  | some n => decide (16 ≤ n ∧ n ≤ 32)

/-- What the update call of a phase comes to once the token `token` is there
and the batch is built: when token, set identifier and batch are all
non-empty the request is sent and `checkErr` applied to the answer; otherwise
the SDK refuses the input and its error is the result. -/
def updateOutcome (c : Client) (token : String) (batch : List IPSetUpdate) (h1 : History) :
    Option GoError × History :=
  if token ≠ "" ∧ c.ipSetID ≠ "" ∧ batch ≠ [] then
    (checkErr (c.service.UpdateIPSet h1
        { ChangeToken := token, IPSetId := c.ipSetID, Updates := batch }),
      h1 ++ [Call.UpdateIPSet { ChangeToken := token, IPSetId := c.ipSetID, Updates := batch }])
  else
    (UpdateIPSetInput.Validate { ChangeToken := token, IPSetId := c.ipSetID, Updates := batch },
      h1)

/-- The first error `net.ParseCIDR` reports on the entries of a list. -/
def firstParseError : List String → Option GoError
  | [] => none
  | ip :: rest =>
    match ParseCIDR ip with
    | .error err => some err
    | .ok _ => firstParseError rest

/-! ## Concrete endpoints for the examples -/

/-- An endpoint that issues the token `"token-1"`, accepts every update and
holds the two entries `9.9.9.0/24` and `10.0.0.0/16`. -/
def acceptingService : Service :=
  { GetChangeToken := fun _ => .ok "token-1",
    GetIPSet := fun _ _ =>
      .ok [{ Type_ := IPSetDescriptorType.Ipv4, Value := "9.9.9.0/24" },
           { Type_ := IPSetDescriptorType.Ipv4, Value := "10.0.0.0/16" }],
    UpdateIPSet := fun _ _ => none }

/-- An endpoint whose `GetChangeToken` fails with a transport error. -/
def noTokenService : Service :=
  { GetChangeToken := fun _ => .error (GoError.generic "RequestError: send request failed"),
    GetIPSet := fun _ _ => .ok [],
    UpdateIPSet := fun _ _ => none }

/-- The protocol error of an endpoint whose limits are exceeded. -/
def limitsExceeded : GoError :=
  GoError.awserr "WAFLimitsExceededException: too many descriptors"
    "WAFLimitsExceededException" "too many descriptors"

/-- An endpoint that issues tokens and answers every update with the protocol
error `WAFLimitsExceededException`. -/
def limitsService : Service :=
  { GetChangeToken := fun _ => .ok "token-1",
    GetIPSet := fun _ _ => .ok [],
    UpdateIPSet := fun _ _ => some limitsExceeded }

/-- The nine error codes `checkErr` has a case for, in the order of its
`switch`. -/
def listedCodes : List String :=
  [ErrCodeWAFStaleDataException, ErrCodeWAFInternalErrorException,
   ErrCodeWAFInvalidAccountException, ErrCodeWAFInvalidOperationException,
   ErrCodeWAFInvalidParameterException, ErrCodeWAFNonexistentContainerException,
   ErrCodeWAFNonexistentItemException, ErrCodeWAFReferencedItemException,
   ErrCodeWAFLimitsExceededException]

/-- A published document with three `CLOUDFRONT` prefixes and one of another
service. -/
def sampleRange : AWSIPRange :=
  { SyncToken := "1541066402", CreateDate := "2018-11-01-10-00-02",
    Prefixes :=
      [{ IPPrefix := "10.0.0.0/16", Region := "GLOBAL", Service := "CLOUDFRONT" },
       { IPPrefix := "8.8.8.0/24", Region := "GLOBAL", Service := "CLOUDFRONT" },
       { IPPrefix := "1.2.3.0/8", Region := "GLOBAL", Service := "CLOUDFRONT" },
       { IPPrefix := "7.7.7.0/24", Region := "us-east-1", Service := "EC2" }] }

/-- The characters `strings.Join` puts after the first element: each further
element preceded by the separator. -/
def joinTail (sep : String) : List String → List Char
  | [] => []
  | s :: rest => sep.data ++ s.data ++ joinTail sep rest

/-- An endpoint that issues the token `"token-1"`, accepts every update and
holds the single entry `10.0.0.0/16`. -/
def containedService : Service :=
  { GetChangeToken := fun _ => .ok "token-1",
    GetIPSet := fun _ _ => .ok [{ Type_ := IPSetDescriptorType.Ipv4, Value := "10.0.0.0/16" }],
    UpdateIPSet := fun _ _ => none }

/-! ## Lemmas -/

theorem indexFrom_nonneg_iff (sub : List Char) :
    ∀ (s : List Char) (i : Nat), 0 ≤ indexFrom sub s i ↔ sub <:+: s := by
  intro s
  induction s with
  | nil =>
    intro i
    cases sub with
    | nil => simp [indexFrom]
    | cons a t => simp [indexFrom]
  | cons c cs ih =>
    intro i
    rw [indexFrom, List.infix_cons_iff]
    by_cases hp : sub.isPrefixOf (c :: cs) = true
    · rw [if_pos hp]
      constructor
      · intro _
        exact Or.inl (List.isPrefixOf_iff_prefix.mp hp)
      · intro _
        exact Int.natCast_nonneg i
    · rw [if_neg hp, ih (i + 1)]
      constructor
      · intro hi
        exact Or.inr hi
      · intro hi
        rcases hi with hi | hi
        · exact absurd (List.isPrefixOf_iff_prefix.mpr hi) hp
        · exact hi

theorem Contains_iff (s sub : String) : Contains s sub = true ↔ IsSubstring sub s := by
  unfold Contains Index IsSubstring
  rw [decide_eq_true_iff]
  exact indexFrom_nonneg_iff sub.data s.data 0

theorem foldl_skip_append {α β : Type} (p : α → Bool) (f : α → β) :
    ∀ (l : List α) (acc : List β),
      l.foldl (fun acc x => if p x = true then acc else acc ++ [f x]) acc
        = acc ++ (l.filter (fun x => !p x)).map f := by
  intro l
  induction l with
  | nil => intro acc; simp
  | cons x xs ih =>
    intro acc
    rw [List.foldl_cons, ih]
    by_cases hx : p x = true
    · simp [hx]
    · simp [hx]

theorem deleteIPList_eq (s : String) (current : List String) :
    deleteIPList s current = deleteBatchSpec s current := by
  unfold deleteIPList deleteBatchSpec
  have h := foldl_skip_append (fun ip => Contains s ip) deleteOf current []
  simp only [deleteOf, List.nil_append] at h ⊢
  rw [h]
  congr 1
  apply List.filter_congr
  intro ip _
  by_cases hc : Contains s ip = true
  · have := (Contains_iff s ip).mp hc
    simp [hc, this]
  · have : ¬ IsSubstring ip s := fun hs => hc ((Contains_iff s ip).mpr hs)
    simp [hc, this]

theorem inWindow_eq_of_parse {ip : String} {a : List Nat} {ipNet : IPNet}
    (hp : ParseCIDR ip = .ok (a, ipNet)) :
    inWindow ip = decide (16 ≤ (IPMask_Size ipNet.Mask).1 ∧ (IPMask_Size ipNet.Mask).1 ≤ 32) := by
  simp [inWindow, prefixLen, hp]

theorem insertLoop_eq :
    ∀ (ips : List String) (acc : List IPSetUpdate),
      insertLoop ips acc =
        match firstParseError ips with
        | some err => .error err
        | none => .ok (acc ++ insertBatchSpec ips) := by
  intro ips
  induction ips with
  | nil => intro acc; simp [insertLoop, firstParseError, insertBatchSpec]
  | cons ip rest ih =>
    intro acc
    rw [insertLoop, firstParseError]
    cases hp : ParseCIDR ip with
    | error err => rfl
    | ok r =>
      obtain ⟨a, ipNet⟩ := r
      have hw := inWindow_eq_of_parse hp
      simp only [CiderMaskSupportMin, CiderMaskSupportMax]
      by_cases hout : (IPMask_Size ipNet.Mask).1 < 16 ∨ (IPMask_Size ipNet.Mask).1 > 32
      · rw [if_pos hout, ih]
        have hin : inWindow ip = false := by
          rw [hw, decide_eq_false_iff_not]
          omega
        simp [insertBatchSpec, List.filter_cons, hin]
      · rw [if_neg hout, ih]
        have hin : inWindow ip = true := by
          rw [hw, decide_eq_true_iff]
          omega
        simp [insertBatchSpec, List.filter_cons, hin, insertOf]

theorem firstParseError_eq_none_iff (ips : List String) :
    firstParseError ips = none ↔ ∀ ip ∈ ips, (prefixLen ip).isSome = true := by
  induction ips with
  | nil => simp [firstParseError]
  | cons ip rest ih =>
    rw [firstParseError]
    cases hp : ParseCIDR ip with
    | error err => simp [prefixLen, hp]
    | ok r => simp [prefixLen, hp, ih]

theorem checkErr_eq_none_iff (err : Option GoError) : checkErr err = none ↔ err = none := by
  cases err with
  | none => simp [checkErr]
  | some e =>
    cases e
    all_goals simp only [checkErr, errorsWrap]
    all_goals try split_ifs
    all_goals simp

theorem checkErr_awserr (text code message : String) :
    checkErr (some (GoError.awserr text code message)) =
      if code ∈ listedCodes then some (GoError.wrapped (GoError.awserr text code message) code)
      else some (GoError.awserr text code message) := by
  by_cases hin : code ∈ listedCodes
  · rw [if_pos hin]
    simp only [listedCodes, List.mem_cons, List.mem_singleton, List.not_mem_nil, or_false] at hin
    rcases hin with h | h | h | h | h | h | h | h | h
    all_goals (subst h; rfl)
  · rw [if_neg hin]
    simp only [listedCodes, List.mem_cons, List.mem_singleton, List.not_mem_nil, or_false,
      not_or] at hin
    obtain ⟨h1, h2, h3, h4, h5, h6, h7, h8, h9⟩ := hin
    simp only [checkErr, if_neg h1, if_neg h2, if_neg h3, if_neg h4, if_neg h5, if_neg h6,
      if_neg h7, if_neg h8, if_neg h9]

theorem checkErr_not_awserr (e : GoError)
    (hne : ∀ text code message, e ≠ GoError.awserr text code message) :
    checkErr (some e) = some e := by
  cases e with
  | awserr text code message => exact absurd rfl (hne text code message)
  | generic text => rfl
  | fundamental msg => rfl
  | wrapped cause msg => rfl
  | parseError type_ text => rfl

theorem match_checkErr (e : Option GoError) (h : History) :
    (match e with
      | some err1 => (some err1, h)
      | none => ((none : Option GoError), h)) = (e, h) := by
  cases e <;> rfl

theorem string_length_lt_one (s : String) : s.length < 1 ↔ s = "" := by
  cases s with
  | mk data =>
    cases data with
    | nil => simp [String.length]
    | cons a t =>
      simp only [String.length, List.length_cons]
      constructor
      · intro h; omega
      · intro h
        have := congrArg String.data h
        simp at this

theorem getChangeToken_eq (c : Client) (h : History) :
    c.getChangeToken h = (c.service.GetChangeToken h, h ++ [Call.GetChangeToken]) := by
  unfold Client.getChangeToken WAFRegional_GetChangeToken
  cases c.service.GetChangeToken h <;> rfl

/-- The input of `UpdateIPSet` is valid exactly when token, set identifier and
batch are non-empty. -/
theorem Validate_eq_none_iff (input : UpdateIPSetInput) :
    input.Validate = none ↔
      input.ChangeToken ≠ "" ∧ input.IPSetId ≠ "" ∧ input.Updates ≠ [] := by
  unfold UpdateIPSetInput.Validate
  have ht := string_length_lt_one input.ChangeToken
  have hi := string_length_lt_one input.IPSetId
  have hu : input.Updates.length < 1 ↔ input.Updates = [] := by
    cases input.Updates <;> simp
  by_cases h1 : input.ChangeToken = "" <;> by_cases h2 : input.IPSetId = "" <;>
    by_cases h3 : input.Updates = [] <;>
    simp [h1, h2, h3, ht.mpr, hi.mpr, hu.mpr, mt ht.mp, mt hi.mp, mt hu.mp]

theorem ite_some_eq {α : Type} {p : Prop} [Decidable p] {a e : α}
    (h : (if p then some a else none) = some e) : e = a := by
  by_cases hp : p
  · rw [if_pos hp] at h
    injection h with h
    exact h.symm
  · rw [if_neg hp] at h
    cases h

theorem checkErr_invalidParams (context : String) (fields : List String) :
    checkErr (some (invalidParams context fields)) = some (invalidParams context fields) := by
  unfold invalidParams
  rw [checkErr_awserr, if_neg (by decide)]

/-- The error of an invalid input has the code `InvalidParameter`, which
`checkErr` passes on unchanged. -/
theorem Validate_some {input : UpdateIPSetInput} {e : GoError} (h : input.Validate = some e) :
    (∃ text message, e = GoError.awserr text "InvalidParameter" message)
      ∧ checkErr (some e) = some e := by
  unfold UpdateIPSetInput.Validate at h
  simp only at h
  rw [ite_some_eq h]
  exact ⟨⟨_, _, rfl⟩, checkErr_invalidParams _ _⟩

theorem checkErr_Validate (input : UpdateIPSetInput) : checkErr input.Validate = input.Validate := by
  cases hv : input.Validate with
  | none => rfl
  | some e => exact (Validate_some hv).2

/-- The update call of a phase followed by `checkErr`. -/
theorem checked_update_eq (c : Client) (token : String) (batch : List IPSetUpdate)
    (h1 : History) :
    (match WAFRegional_UpdateIPSet c.service
        { ChangeToken := token, IPSetId := c.ipSetID, Updates := batch } h1 with
      | (err, h2) =>
        match checkErr err with
        | some err1 => (some err1, h2)
        | none => ((none : Option GoError), h2)) = updateOutcome c token batch h1 := by
  unfold WAFRegional_UpdateIPSet updateOutcome
  by_cases hv : token ≠ "" ∧ c.ipSetID ≠ "" ∧ batch ≠ []
  · have hnone := (Validate_eq_none_iff
      { ChangeToken := token, IPSetId := c.ipSetID, Updates := batch }).mpr hv
    rw [if_pos hv, hnone]
    simp only
    exact match_checkErr _ _
  · rw [if_neg hv]
    cases hval : UpdateIPSetInput.Validate
        { ChangeToken := token, IPSetId := c.ipSetID, Updates := batch } with
    | none => exact absurd ((Validate_eq_none_iff _).mp hval) hv
    | some e =>
      simp only
      rw [(Validate_some hval).2]

/-- The ways a call of `InsertIPSet` on a non-empty list can go. -/
theorem InsertIPSet_eq (c : Client) (h : History) (ips : List String) (hne : ips ≠ []) :
    c.InsertIPSet ips h =
      match c.service.GetChangeToken h, firstParseError ips with
      | .error err, _ => (some err, h ++ [Call.GetChangeToken])
      | .ok _, some err => (some err, h ++ [Call.GetChangeToken])
      | .ok token, none =>
        updateOutcome c token (insertBatchSpec ips) (h ++ [Call.GetChangeToken]) := by
  have hlen : ¬ ips.length = 0 := by
    intro h0
    exact hne (List.length_eq_zero.mp h0)
  unfold Client.InsertIPSet
  rw [if_neg hlen, insertLoop_eq, getChangeToken_eq]
  cases ht : c.service.GetChangeToken h with
  | error err => rfl
  | ok token =>
    cases hf : firstParseError ips with
    | some err => rfl
    | none =>
      simp only [List.nil_append]
      exact checked_update_eq c token (insertBatchSpec ips) (h ++ [Call.GetChangeToken])

/-- The ways a call of `DeleteIPSet` can go. -/
theorem DeleteIPSet_eq (c : Client) (h : History) (s : String) (current : List String) :
    c.DeleteIPSet s current h =
      if deleteBatchSpec s current = [] then (none, h)
      else
        match c.service.GetChangeToken h with
        | .error err => (some err, h ++ [Call.GetChangeToken])
        | .ok token =>
          updateOutcome c token (deleteBatchSpec s current) (h ++ [Call.GetChangeToken]) := by
  unfold Client.DeleteIPSet
  rw [deleteIPList_eq, getChangeToken_eq]
  by_cases hb : deleteBatchSpec s current = []
  · simp [hb]
  · have hlen : ¬ (deleteBatchSpec s current).length = 0 := by
      intro h0
      exact hb (List.length_eq_zero.mp h0)
    simp only [hlen, hb, if_false]
    cases ht : c.service.GetChangeToken h with
    | error err => rfl
    | ok token =>
      exact checked_update_eq c token (deleteBatchSpec s current) (h ++ [Call.GetChangeToken])

/-- The history after the update call of a phase: unchanged, or one
`UpdateIPSet` request more. -/
theorem updateOutcome_history (c : Client) (token : String) (batch : List IPSetUpdate)
    (h1 : History) :
    (batch ≠ [] ∧ (updateOutcome c token batch h1).2 =
        h1 ++ [Call.UpdateIPSet { ChangeToken := token, IPSetId := c.ipSetID, Updates := batch }])
      ∨ ((updateOutcome c token batch h1).1 ≠ none ∧ (updateOutcome c token batch h1).2 = h1) := by
  unfold updateOutcome
  by_cases hv : token ≠ "" ∧ c.ipSetID ≠ "" ∧ batch ≠ []
  · left
    rw [if_pos hv]
    exact ⟨hv.2.2, rfl⟩
  · right
    rw [if_neg hv]
    refine ⟨?_, rfl⟩
    intro hnone
    exact hv ((Validate_eq_none_iff _).mp hnone)

theorem ParseCIDR_error {s : String} {e : GoError} (h : ParseCIDR s = .error e) :
    e = GoError.parseError "CIDR address" s := by
  unfold ParseCIDR at h
  simp only at h
  split at h
  · injection h with h; exact h.symm
  · split at h
    · split at h
      · injection h with h; exact h.symm
      · cases h
    · injection h with h; exact h.symm

theorem prefixLen_eq_none_iff (ip : String) :
    prefixLen ip = none ↔ ParseCIDR ip = .error (GoError.parseError "CIDR address" ip) := by
  unfold prefixLen
  cases hp : ParseCIDR ip with
  | error e => simp [ParseCIDR_error hp]
  | ok r => simp

theorem firstParseError_of_bad :
    ∀ (ips : List String), (∃ ip ∈ ips, prefixLen ip = none) →
      ∃ pre bad post, ips = pre ++ bad :: post
        ∧ (∀ x ∈ pre, (prefixLen x).isSome = true)
        ∧ prefixLen bad = none
        ∧ firstParseError ips = some (GoError.parseError "CIDR address" bad) := by
  intro ips
  induction ips with
  | nil => intro h; simp at h
  | cons ip rest ih =>
    intro hbad
    cases hp : ParseCIDR ip with
    | error e =>
      have he := ParseCIDR_error hp
      refine ⟨[], ip, rest, rfl, by simp, ?_, ?_⟩
      · rw [prefixLen_eq_none_iff, hp, he]
      · rw [firstParseError, hp, he]
    | ok r =>
      have hsome : (prefixLen ip).isSome = true := by simp [prefixLen, hp]
      have hrest : ∃ x ∈ rest, prefixLen x = none := by
        obtain ⟨x, hx, hxn⟩ := hbad
        rcases List.mem_cons.mp hx with hx | hx
        · rw [← hx, hxn] at hsome
          simp at hsome
        · exact ⟨x, hx, hxn⟩
      obtain ⟨pre, bad, post, hsplit, hpre, hb, hf⟩ := ih hrest
      refine ⟨ip :: pre, bad, post, by rw [hsplit]; rfl, ?_, hb, ?_⟩
      · intro x hx
        rcases List.mem_cons.mp hx with hx | hx
        · rw [hx]; exact hsome
        · exact hpre x hx
      · rw [firstParseError, hp]
        exact hf

theorem tokenCalls_append (h1 h2 : History) : tokenCalls (h1 ++ h2) = tokenCalls h1 + tokenCalls h2 := by
  unfold tokenCalls
  exact List.count_append _ _ _

theorem updateCalls_append (h1 h2 : History) :
    updateCalls (h1 ++ h2) = updateCalls h1 ++ updateCalls h2 := by
  induction h1 with
  | nil => rfl
  | cons a t ih =>
    cases a <;> simp [updateCalls, ih]

/-- The requests one call of `InsertIPSet` adds to the history. -/
theorem InsertIPSet_history (c : Client) (h : History) (ips : List String) :
    (c.InsertIPSet ips h).2 = h
      ∨ (c.InsertIPSet ips h).2 = h ++ [Call.GetChangeToken]
      ∨ ∃ token, (c.InsertIPSet ips h).2 =
          h ++ [Call.GetChangeToken,
                Call.UpdateIPSet { ChangeToken := token, IPSetId := c.ipSetID,
                                   Updates := insertBatchSpec ips }] := by
  by_cases hne : ips = []
  · left
    rw [hne]
    rfl
  · right
    rw [InsertIPSet_eq c h ips hne]
    cases c.service.GetChangeToken h with
    | error err => left; rfl
    | ok token =>
      cases firstParseError ips with
      | some err => left; rfl
      | none =>
        simp only
        rcases updateOutcome_history c token (insertBatchSpec ips) (h ++ [Call.GetChangeToken])
          with ⟨_, hh⟩ | ⟨_, hh⟩
        · right
          refine ⟨token, ?_⟩
          rw [hh]
          simp
        · left
          exact hh

theorem insertBatchSpec_action (ips : List String) :
    ∀ u ∈ insertBatchSpec ips, u.Action = ChangeAction.Insert := by
  intro u hu
  unfold insertBatchSpec at hu
  rw [List.mem_map] at hu
  obtain ⟨ip, _, rfl⟩ := hu
  rfl

/-- The method `Size` gives back the number of ones `CIDRMask` was built with. -/
theorem IPMask_Size_CIDRMask_v4 : ∀ n, n ≤ 32 → IPMask_Size (CIDRMask n 32) = ((n : Int), 32) := by
  decide

set_option maxRecDepth 100000 in
theorem IPMask_Size_CIDRMask_v6 : ∀ n, n ≤ 128 → IPMask_Size (CIDRMask n 128) = ((n : Int), 128) := by
  decide

/-- What an accepted entry looks like: text, a `/`, a decimal number that is
the whole rest and at most 32 (IPv4 address) or 128 (IPv6 address). -/
theorem ParseCIDR_ok {s : String} {a : List Nat} {ipNet : IPNet}
    (h : ParseCIDR s = .ok (a, ipNet)) :
    ∃ addr mask, splitSlash s.data = some (addr, mask)
      ∧ (dtoi mask).2.2 = true ∧ (dtoi mask).2.1 = mask.length
      ∧ ((parseIPv4 addr).isSome = true ∧ (dtoi mask).1 ≤ 32
            ∧ ipNet.Mask = CIDRMask (dtoi mask).1 32
          ∨ (parseIPv4 addr = none ∧ (parseIPv6 addr).isSome = true) ∧ (dtoi mask).1 ≤ 128
            ∧ ipNet.Mask = CIDRMask (dtoi mask).1 128) := by
  unfold ParseCIDR at h
  simp only at h
  cases hs : splitSlash s.data with
  | none => rw [hs] at h; cases h
  | some am =>
    obtain ⟨addr, mask⟩ := am
    rw [hs] at h
    simp only at h
    refine ⟨addr, mask, rfl, ?_⟩
    rcases hd : dtoi mask with ⟨n, i, ok⟩
    rw [hd] at h
    cases h4 : parseIPv4 addr with
    | some ip =>
      rw [h4] at h
      simp only [IPv4len] at h
      split_ifs at h with hc
      injection h with h
      simp only [Prod.mk.injEq] at h
      simp only [Bool.or_eq_true, Bool.not_eq_true', decide_eq_true_eq, not_or, Bool.not_eq_false,
        not_not, not_lt] at hc
      refine ⟨hc.1.1, hc.1.2, Or.inl ⟨rfl, by omega, ?_⟩⟩
      rw [← h.2]
    | none =>
      rw [h4] at h
      simp only [IPv6len] at h
      cases h6 : parseIPv6 addr with
      | none => rw [h6] at h; cases h
      | some ip =>
        rw [h6] at h
        simp only at h
        split_ifs at h with hc
        injection h with h
        simp only [Prod.mk.injEq] at h
        simp only [Bool.or_eq_true, Bool.not_eq_true', decide_eq_true_eq, not_or,
          Bool.not_eq_false, not_not, not_lt] at hc
        refine ⟨hc.1.1, hc.1.2, Or.inr ⟨⟨rfl, rfl⟩, by omega, ?_⟩⟩
        rw [← h.2]

/-- The prefix length the loop computes is the number written after the `/`. -/
theorem prefixLen_written {ip : String} {n : Int} (h : prefixLen ip = some n) :
    ∃ addr mask, splitSlash ip.data = some (addr, mask)
      ∧ (dtoi mask).2.2 = true ∧ (dtoi mask).2.1 = mask.length
      ∧ n = ((dtoi mask).1 : Int) := by
  unfold prefixLen at h
  cases hp : ParseCIDR ip with
  | error e => rw [hp] at h; cases h
  | ok r =>
    obtain ⟨a, ipNet⟩ := r
    rw [hp] at h
    simp only [Option.some.injEq] at h
    obtain ⟨addr, mask, hs, hok, hlen, hcase⟩ := ParseCIDR_ok hp
    refine ⟨addr, mask, hs, hok, hlen, ?_⟩
    rcases hcase with ⟨_, hle, hm⟩ | ⟨_, hle, hm⟩
    · rw [← h, hm, IPMask_Size_CIDRMask_v4 _ hle]
    · rw [← h, hm, IPMask_Size_CIDRMask_v6 _ hle]

theorem foldl_keep_append {α β : Type} (p : α → Prop) [DecidablePred p] (f : α → β) :
    ∀ (l : List α) (acc : List β),
      l.foldl (fun acc x => if p x then acc ++ [f x] else acc) acc
        = acc ++ (l.filter (fun x => decide (p x))).map f := by
  intro l
  induction l with
  | nil => intro acc; simp
  | cons x xs ih =>
    intro acc
    rw [List.foldl_cons, ih]
    by_cases hx : p x
    · simp [hx]
    · simp [hx]

theorem foldl_join_data (sep : String) :
    ∀ (rest : List String) (b : String),
      (rest.foldl (fun b s => b ++ sep ++ s) b).data = b.data ++ joinTail sep rest := by
  intro rest
  induction rest with
  | nil => intro b; simp [joinTail]
  | cons s rest ih =>
    intro b
    rw [List.foldl_cons, ih]
    simp [joinTail, String.data_append, List.append_assoc]

/-- The characters of a joined string: the first element, then each further
element preceded by the separator. -/
theorem Join_data (d : String) (rest : List String) (sep : String) :
    (Join (d :: rest) sep).data = d.data ++ joinTail sep rest := by
  unfold Join
  exact foldl_join_data sep rest d

theorem infix_joinTail (sep : String) (x : List Char) :
    ∀ (rest : List String), (∃ d ∈ rest, x <:+: d.data) → x <:+: joinTail sep rest := by
  intro rest
  induction rest with
  | nil => intro h; simp at h
  | cons s rest ih =>
    intro h
    obtain ⟨d, hd, hx⟩ := h
    rw [joinTail]
    rcases List.mem_cons.mp hd with hd | hd
    · rw [hd] at hx
      exact hx.trans (List.infix_append sep.data s.data (joinTail sep rest))
    · exact (ih ⟨d, hd, hx⟩).trans (List.suffix_append _ _).isInfix

/-- What lies inside one element of the list lies inside the joined string. -/
theorem infix_Join (sep : String) (x : List Char) (desired : List String)
    (h : ∃ d ∈ desired, x <:+: d.data) : x <:+: (Join desired sep).data := by
  cases desired with
  | nil => simp at h
  | cons d rest =>
    rw [Join_data]
    obtain ⟨y, hy, hx⟩ := h
    rcases List.mem_cons.mp hy with hy | hy
    · rw [hy] at hx
      exact hx.trans (List.prefix_append _ _).isInfix
    · exact (infix_joinTail sep x rest ⟨y, hy, hx⟩).trans (List.suffix_append _ _).isInfix

theorem prefix_append_cons_of_not_mem {x a b : List Char} {c : Char} (hc : c ∉ x)
    (h : x <+: a ++ c :: b) : x <+: a := by
  by_cases hl : x.length ≤ a.length
  · exact List.prefix_of_prefix_length_le h (List.prefix_append a (c :: b)) hl
  · exfalso
    have h1 : a ++ [c] <+: a ++ c :: b := by
      have : a ++ c :: b = (a ++ [c]) ++ b := by simp
      rw [this]
      exact List.prefix_append _ _
    have h2 : a ++ [c] <+: x :=
      List.prefix_of_prefix_length_le h1 h (by simp; omega)
    exact hc (h2.subset (by simp))

/-- A text without the character `c` that lies inside `a ++ c :: b` lies
inside `a` or inside `b`. -/
theorem infix_append_cons_of_not_mem {x b : List Char} {c : Char} (hc : c ∉ x) :
    ∀ (a : List Char), x <:+: a ++ c :: b → x <:+: a ∨ x <:+: b := by
  intro a
  induction a with
  | nil =>
    intro h
    rw [List.nil_append, List.infix_cons_iff] at h
    rcases h with h | h
    · left
      exact (prefix_append_cons_of_not_mem (a := []) hc h).isInfix
    · right
      exact h
  | cons y a ih =>
    intro h
    rw [List.cons_append, List.infix_cons_iff] at h
    rcases h with h | h
    · left
      exact (prefix_append_cons_of_not_mem (a := y :: a) hc h).isInfix
    · rcases ih h with h | h
      · left
        exact h.trans (List.suffix_cons y a).isInfix
      · right
        exact h

theorem infix_joinTail_bar {x : List Char} (hc : '|' ∉ x) :
    ∀ (rest : List String) (d : String),
      x <:+: d.data ++ joinTail "|" rest → ∃ y ∈ d :: rest, x <:+: y.data := by
  intro rest
  induction rest with
  | nil =>
    intro d h
    rw [joinTail, List.append_nil] at h
    exact ⟨d, by simp, h⟩
  | cons s rest ih =>
    intro d h
    have hsep : ("|" : String).data = ['|'] := rfl
    rw [joinTail, hsep, List.append_assoc, List.singleton_append] at h
    rcases infix_append_cons_of_not_mem hc d.data h with h | h
    · exact ⟨d, by simp, h⟩
    · obtain ⟨y, hy, hx⟩ := ih s h
      exact ⟨y, List.mem_cons_of_mem d hy, hx⟩

/-- A non-empty text without `|` that lies inside the `|`-joined string lies
inside one of the joined elements. -/
theorem infix_Join_bar {x : List Char} (hne : x ≠ []) (hc : '|' ∉ x) (desired : List String)
    (h : x <:+: (Join desired "|").data) : ∃ d ∈ desired, x <:+: d.data := by
  cases desired with
  | nil =>
    exfalso
    have : (Join [] "|").data = [] := rfl
    rw [this] at h
    exact hne (List.infix_nil.mp h)
  | cons d rest =>
    rw [Join_data] at h
    exact infix_joinTail_bar hc rest d h

theorem not_exists_mem_iff (ip : String) (desired : List String) :
    (¬ ∃ d ∈ desired, IsSubstring ip d) ↔ ∀ d ∈ desired, ¬ IsSubstring ip d := by
  constructor
  · intro h d hd hs
    exact h ⟨d, hd, hs⟩
  · intro h hex
    obtain ⟨d, hd, hs⟩ := hex
    exact h d hd hs

/-- A call of `InsertIPSet` that returns `nil` got a token and sent the one
Insert batch, which is not empty. -/
theorem InsertIPSet_ok {c : Client} {h h1 : History} {ips : List String}
    (hok : c.InsertIPSet ips h = (none, h1)) :
    ∃ token, c.service.GetChangeToken h = .ok token
      ∧ h1 = h ++ [Call.GetChangeToken,
                   Call.UpdateIPSet { ChangeToken := token, IPSetId := c.ipSetID,
                                      Updates := insertBatchSpec ips }] := by
  by_cases hne : ips = []
  · rw [hne] at hok
    simp [Client.InsertIPSet, errorsNew] at hok
  · rw [InsertIPSet_eq c h ips hne] at hok
    cases ht : c.service.GetChangeToken h with
    | error err =>
      rw [ht] at hok
      simp at hok
    | ok token =>
      rw [ht] at hok
      cases hf : firstParseError ips with
      | some err =>
        rw [hf] at hok
        simp at hok
      | none =>
        rw [hf] at hok
        simp only at hok
        refine ⟨token, rfl, ?_⟩
        rcases updateOutcome_history c token (insertBatchSpec ips) (h ++ [Call.GetChangeToken])
          with ⟨_, hh⟩ | ⟨hne1, _⟩
        · rw [hok] at hh
          simp only at hh
          rw [hh]
          simp
        · rw [hok] at hne1
          exact absurd rfl hne1

/-- A call of `DeleteIPSet` that returns `nil` either had no delete candidate
and sent nothing, or got a token and sent the one Delete batch. -/
theorem DeleteIPSet_ok {c : Client} {h h3 : History} {s : String} {current : List String}
    (hok : c.DeleteIPSet s current h = (none, h3)) :
    (deleteIPList s current = [] ∧ h3 = h)
      ∨ (deleteIPList s current ≠ []
          ∧ ∃ token, c.service.GetChangeToken h = .ok token
            ∧ h3 = h ++ [Call.GetChangeToken,
                         Call.UpdateIPSet { ChangeToken := token, IPSetId := c.ipSetID,
                                            Updates := deleteIPList s current }]) := by
  rw [DeleteIPSet_eq] at hok
  rw [deleteIPList_eq]
  by_cases hb : deleteBatchSpec s current = []
  · left
    rw [if_pos hb] at hok
    simp only [Prod.mk.injEq, true_and] at hok
    exact ⟨hb, hok.symm⟩
  · right
    rw [if_neg hb] at hok
    refine ⟨hb, ?_⟩
    cases ht : c.service.GetChangeToken h with
    | error err =>
      rw [ht] at hok
      simp at hok
    | ok token =>
      rw [ht] at hok
      simp only at hok
      refine ⟨token, rfl, ?_⟩
      rcases updateOutcome_history c token (deleteBatchSpec s current)
          (h ++ [Call.GetChangeToken]) with ⟨_, hh⟩ | ⟨hne1, _⟩
      · rw [hok] at hh
        simp only at hh
        rw [hh]
        simp
      · rw [hok] at hne1
        exact absurd rfl hne1

theorem foldl_values (descriptors : List IPSetDescriptor) :
    ∀ (acc : List String),
      descriptors.foldl (fun ips ipSet => ips ++ [ipSet.Value]) acc
        = acc ++ descriptors.map (fun d => d.Value) := by
  induction descriptors with
  | nil => intro acc; simp
  | cons d rest ih =>
    intro acc
    rw [List.foldl_cons, ih]
    simp

/-- A call of `GetIPSet` with a non-empty set identifier sends one request and
returns the values of the descriptors in the answer, or the error of the
answer. -/
theorem GetIPSet_eq (c : Client) (h : History) (hid : c.ipSetID ≠ "") :
    c.GetIPSet h =
      (match c.service.GetIPSet h { IPSetId := c.ipSetID } with
        | .error err => .error err
        | .ok descriptors => .ok (descriptors.map (fun d => d.Value)),
       h ++ [Call.GetIPSet { IPSetId := c.ipSetID }]) := by
  have hlen : ¬ c.ipSetID.length < 1 := fun hl => hid ((string_length_lt_one _).mp hl)
  have hval : GetIPSetInput.Validate { IPSetId := c.ipSetID } = none := by
    simp [GetIPSetInput.Validate, hlen]
  unfold Client.GetIPSet WAFRegional_GetIPSet
  simp only [hval]
  cases hg : c.service.GetIPSet h { IPSetId := c.ipSetID } with
  | error err => rfl
  | ok descriptors =>
    simp only
    rw [foldl_values]
    rfl

theorem deleteIPList_action (s : String) (current : List String) :
    ∀ u ∈ deleteIPList s current, u.Action = ChangeAction.Delete := by
  intro u hu
  rw [deleteIPList_eq] at hu
  unfold deleteBatchSpec at hu
  rw [List.mem_map] at hu
  obtain ⟨ip, _, rfl⟩ := hu
  rfl

theorem afterSlash_of_splitSlash :
    ∀ (s a m : List Char), splitSlash s = some (a, m) → afterSlash s = some m := by
  intro s
  induction s with
  | nil => intro a m h; simp [splitSlash] at h
  | cons c cs ih =>
    intro a m h
    rw [splitSlash] at h
    rw [afterSlash]
    by_cases hc : c = '/'
    · rw [if_pos hc] at h
      rw [if_pos hc]
      injection h with h
      injection h with _ h2
      rw [h2]
    · rw [if_neg hc] at h
      rw [if_neg hc]
      cases hs : splitSlash cs with
      | none => rw [hs] at h; cases h
      | some am =>
        obtain ⟨a1, m1⟩ := am
        rw [hs] at h
        simp only [Option.some.injEq, Prod.mk.injEq] at h
        rw [← h.2]
        exact ih a1 m1 hs

theorem dtoiLoop_all :
    ∀ (cs : List Char) (n i v j : Nat), dtoiLoop cs n i = (v, j, true) → j = i + cs.length →
      cs.all (fun c => decide ('0' ≤ c ∧ c ≤ '9')) = true
        ∧ v = cs.foldl (fun n c => 10 * n + (c.toNat - '0'.toNat)) n := by
  intro cs
  induction cs with
  | nil =>
    intro n i v j h _
    simp only [dtoiLoop, Prod.mk.injEq] at h
    simp [h.1]
  | cons c cs ih =>
    intro n i v j h hj
    rw [dtoiLoop] at h
    by_cases hd : '0' ≤ c ∧ c ≤ '9'
    · rw [if_pos hd] at h
      simp only at h
      by_cases hbig : n * 10 + (c.toNat - '0'.toNat) ≥ big
      · rw [if_pos hbig] at h
        simp at h
      · rw [if_neg hbig] at h
        have := ih (n * 10 + (c.toNat - '0'.toNat)) (i + 1) v j h
          (by rw [hj, List.length_cons]; omega)
        refine ⟨?_, ?_⟩
        · rw [List.all_cons, this.1]
          simp [hd]
        · rw [List.foldl_cons, Nat.mul_comm 10 n]
          exact this.2
    · rw [if_neg hd] at h
      simp only [Prod.mk.injEq, and_true] at h
      rw [List.length_cons] at hj
      omega

/-- A text `dtoi` reads to its end is a non-empty text of decimal digits, and
`dtoi` gives its value. -/
theorem dtoi_decimal {m : List Char} (hok : (dtoi m).2.2 = true)
    (hlen : (dtoi m).2.1 = m.length) : decimalValue m = some (dtoi m).1 := by
  unfold dtoi at hok hlen ⊢
  rcases hl : dtoiLoop m 0 0 with ⟨v, j, ok⟩
  rw [hl] at hok hlen
  cases ok with
  | false => simp at hok
  | true =>
    simp only at hok hlen ⊢
    by_cases hj : j = 0
    · simp [hj] at hok
    · simp only [hj, if_false] at hok hlen ⊢
      have hall := dtoiLoop_all m 0 0 v j hl (by omega)
      have hne : m ≠ [] := by
        intro h0
        rw [h0] at hlen
        exact hj hlen
      unfold decimalValue
      rw [if_pos ⟨hne, hall.1⟩, hall.2]

/-- For an entry `net.ParseCIDR` accepts, the mask length the loop computes is
the number written after the `/`. -/
theorem writtenPrefixLen_of_prefixLen {ip : String} {n : Int} (h : prefixLen ip = some n) :
    ∃ k : Nat, writtenPrefixLen ip = some k ∧ n = (k : Int) := by
  obtain ⟨addr, mask, hs, hok, hlen, hn⟩ := prefixLen_written h
  refine ⟨(dtoi mask).1, ?_, hn⟩
  unfold writtenPrefixLen
  rw [afterSlash_of_splitSlash ip.data addr mask hs]
  exact dtoi_decimal hok hlen

theorem inWindow_eq_written {ip : String} (h : (prefixLen ip).isSome = true) :
    inWindow ip = writtenInWindow ip := by
  cases hp : prefixLen ip with
  | none => rw [hp] at h; cases h
  | some n =>
    obtain ⟨k, hk, hn⟩ := writtenPrefixLen_of_prefixLen hp
    unfold inWindow writtenInWindow
    rw [hp, hk]
    simp only [hn]
    congr 1
    apply propext
    constructor
    · intro ⟨h1, h2⟩; exact ⟨by omega, by omega⟩
    · intro ⟨h1, h2⟩; exact ⟨by omega, by omega⟩

/-- On a list all of whose entries parse, the batch the loop builds is the
batch of the entries whose written prefix length is in the window. -/
theorem insertBatchSpec_eq_written (desired : List String)
    (hparse : ∀ ip ∈ desired, (prefixLen ip).isSome = true) :
    insertBatchSpec desired = (desired.filter writtenInWindow).map insertOf := by
  unfold insertBatchSpec
  congr 1
  apply List.filter_congr
  intro ip hip
  exact inWindow_eq_written (hparse ip hip)

theorem insertBatch_value_ne (ips : List String) :
    ∀ u ∈ insertBatchSpec ips, u.Descriptor.Value ≠ "" := by
  intro u hu
  unfold insertBatchSpec at hu
  rw [List.mem_map] at hu
  obtain ⟨ip, hip, rfl⟩ := hu
  rw [List.mem_filter] at hip
  intro h0
  have h1 : ip = "" := h0
  have hw := hip.2
  rw [h1] at hw
  revert hw
  decide

theorem deleteIPList_value_ne (s : String) (current : List String) :
    ∀ u ∈ deleteIPList s current, u.Descriptor.Value ≠ "" := by
  intro u hu
  rw [deleteIPList_eq] at hu
  unfold deleteBatchSpec at hu
  rw [List.mem_map] at hu
  obtain ⟨ip, hip, rfl⟩ := hu
  rw [List.mem_filter] at hip
  intro h0
  have h1 : ip = "" := h0
  have hnot : ¬ IsSubstring ip s := by simpa using hip.2
  apply hnot
  rw [h1]
  exact List.nil_infix

/-- The two ways the update call of a phase can go. -/
theorem updateOutcome_cases (c : Client) (token : String) (batch : List IPSetUpdate)
    (h1 : History) :
    ((token ≠ "" ∧ c.ipSetID ≠ "" ∧ batch ≠ [])
        ∧ updateOutcome c token batch h1 =
          (checkErr (c.service.UpdateIPSet h1
              { ChangeToken := token, IPSetId := c.ipSetID, Updates := batch }),
            h1 ++ [Call.UpdateIPSet
              { ChangeToken := token, IPSetId := c.ipSetID, Updates := batch }]))
      ∨ (¬ (token ≠ "" ∧ c.ipSetID ≠ "" ∧ batch ≠ [])
        ∧ updateOutcome c token batch h1 =
          (UpdateIPSetInput.Validate
              { ChangeToken := token, IPSetId := c.ipSetID, Updates := batch }, h1)
        ∧ UpdateIPSetInput.Validate
              { ChangeToken := token, IPSetId := c.ipSetID, Updates := batch } ≠ none) := by
  unfold updateOutcome
  by_cases hv : token ≠ "" ∧ c.ipSetID ≠ "" ∧ batch ≠ []
  · left
    rw [if_pos hv]
    exact ⟨hv, rfl⟩
  · right
    rw [if_neg hv]
    refine ⟨hv, rfl, ?_⟩
    intro hnone
    exact hv ((Validate_eq_none_iff _).mp hnone)

/-- A call of `InsertIPSet` on a non-empty list either sends the token request
and the update request, which happens exactly when the token is issued and not
empty, the set identifier is not empty, every entry parses and the batch is
not empty; or it sends the token request alone and returns an error. -/
theorem InsertIPSet_cases (c : Client) (h : History) (ips : List String) (hne : ips ≠ []) :
    (∃ token, c.service.GetChangeToken h = .ok token ∧ token ≠ "" ∧ c.ipSetID ≠ ""
        ∧ firstParseError ips = none ∧ insertBatchSpec ips ≠ []
        ∧ c.InsertIPSet ips h =
            (checkErr (c.service.UpdateIPSet (h ++ [Call.GetChangeToken])
                { ChangeToken := token, IPSetId := c.ipSetID, Updates := insertBatchSpec ips }),
              h ++ [Call.GetChangeToken,
                    Call.UpdateIPSet { ChangeToken := token, IPSetId := c.ipSetID,
                                       Updates := insertBatchSpec ips }]))
      ∨ (¬ (∃ token, c.service.GetChangeToken h = .ok token ∧ token ≠ "" ∧ c.ipSetID ≠ ""
              ∧ firstParseError ips = none ∧ insertBatchSpec ips ≠ [])
          ∧ (c.InsertIPSet ips h).1 ≠ none
          ∧ (c.InsertIPSet ips h).2 = h ++ [Call.GetChangeToken]) := by
  rw [InsertIPSet_eq c h ips hne]
  cases ht : c.service.GetChangeToken h with
  | error err =>
    right
    refine ⟨?_, by simp, rfl⟩
    rintro ⟨token, htok, _⟩
    cases htok
  | ok token =>
    cases hf : firstParseError ips with
    | some err =>
      right
      refine ⟨?_, by simp, rfl⟩
      rintro ⟨token2, _, _, _, hfn, _⟩
      cases hfn
    | none =>
      simp only
      rcases updateOutcome_cases c token (insertBatchSpec ips) (h ++ [Call.GetChangeToken])
        with ⟨hv, hout⟩ | ⟨hv, hout, hval⟩
      · left
        refine ⟨token, rfl, hv.1, hv.2.1, trivial, hv.2.2, ?_⟩
        rw [hout]
        simp
      · right
        rw [hout]
        refine ⟨?_, hval, rfl⟩
        rintro ⟨token2, htok, h1, h2, _, h3⟩
        injection htok with htok
        rw [← htok] at h1
        exact hv ⟨h1, h2, h3⟩

/-- A call of `DeleteIPSet` with a delete candidate either sends the token
request and the update request, which happens exactly when the token is issued
and not empty and the set identifier is not empty; or it sends the token
request alone and returns an error. -/
theorem DeleteIPSet_cases (c : Client) (h : History) (s : String) (current : List String)
    (hcand : deleteIPList s current ≠ []) :
    (∃ token, c.service.GetChangeToken h = .ok token ∧ token ≠ "" ∧ c.ipSetID ≠ ""
        ∧ c.DeleteIPSet s current h =
            (checkErr (c.service.UpdateIPSet (h ++ [Call.GetChangeToken])
                { ChangeToken := token, IPSetId := c.ipSetID,
                  Updates := deleteIPList s current }),
              h ++ [Call.GetChangeToken,
                    Call.UpdateIPSet { ChangeToken := token, IPSetId := c.ipSetID,
                                       Updates := deleteIPList s current }]))
      ∨ (¬ (∃ token, c.service.GetChangeToken h = .ok token ∧ token ≠ "" ∧ c.ipSetID ≠ "")
          ∧ (c.DeleteIPSet s current h).1 ≠ none
          ∧ (c.DeleteIPSet s current h).2 = h ++ [Call.GetChangeToken]) := by
  rw [DeleteIPSet_eq]
  rw [deleteIPList_eq] at hcand ⊢
  rw [if_neg hcand]
  cases ht : c.service.GetChangeToken h with
  | error err =>
    right
    refine ⟨?_, by simp, rfl⟩
    rintro ⟨token, htok, _⟩
    cases htok
  | ok token =>
    simp only
    rcases updateOutcome_cases c token (deleteBatchSpec s current) (h ++ [Call.GetChangeToken])
      with ⟨hv, hout⟩ | ⟨hv, hout, hval⟩
    · left
      refine ⟨token, rfl, hv.1, hv.2.1, ?_⟩
      rw [hout]
      simp
    · right
      rw [hout]
      refine ⟨?_, hval, rfl⟩
      rintro ⟨token2, htok, h1, h2⟩
      injection htok with htok
      rw [← htok] at h1
      exact hv ⟨h1, h2, hcand⟩

/-! ## The claims -/

/-- C1: for a non-empty desired list all of whose entries parse, every update
batch `InsertIPSet` submits is exactly the sub-list of the desired entries
whose written prefix length `n` (the number after the `/`) satisfies
`16 ≤ n ≤ 32`, in the order of `desired` and with duplicates kept, each turned
into an Insert update of the unchanged string.  At most one batch is
submitted; it is submitted when the token is issued and the SDK accepts the
input (token, set identifier and batch not empty).  No entry whose written
prefix length is outside the window is in the batch. -/
theorem C1_insert_batch_is_window_sublist (c : Client) (h : History) (desired : List String)
    (hne : desired ≠ []) (hparse : ∀ ip ∈ desired, (prefixLen ip).isSome = true) :
    (∀ input ∈ updateCalls ((c.InsertIPSet desired h).2.drop h.length),
        input.Updates = (desired.filter writtenInWindow).map insertOf)
    ∧ (updateCalls ((c.InsertIPSet desired h).2.drop h.length)).length ≤ 1
    ∧ (∀ token, c.service.GetChangeToken h = .ok token → token ≠ "" → c.ipSetID ≠ "" →
        desired.filter writtenInWindow ≠ [] →
        (c.InsertIPSet desired h).2 =
          h ++ [Call.GetChangeToken,
                Call.UpdateIPSet { ChangeToken := token, IPSetId := c.ipSetID,
                                   Updates := (desired.filter writtenInWindow).map insertOf }])
    ∧ (∀ u ∈ (desired.filter writtenInWindow).map insertOf,
        u.Action = ChangeAction.Insert ∧ u.Descriptor.Value ∈ desired
          ∧ ∃ n, writtenPrefixLen u.Descriptor.Value = some n ∧ 16 ≤ n ∧ n ≤ 32)
    ∧ (∀ ip ∈ desired, ∀ n, writtenPrefixLen ip = some n → (n < 16 ∨ 32 < n) →
        ∀ u ∈ (desired.filter writtenInWindow).map insertOf, u.Descriptor.Value ≠ ip) := by
  have hnone : firstParseError desired = none := (firstParseError_eq_none_iff desired).mpr hparse
  have hbatch := insertBatchSpec_eq_written desired hparse
  have hcases := InsertIPSet_cases c h desired hne
  rw [hbatch] at hcases
  refine ⟨?_, ?_, ?_, ?_, ?_⟩
  · intro input hin
    rcases hcases with ⟨token, _, _, _, _, _, heq⟩ | ⟨_, _, hh⟩
    · rw [heq] at hin
      simp [updateCalls] at hin
      rw [hin]
    · rw [hh] at hin
      simp [updateCalls] at hin
  · rcases hcases with ⟨token, _, _, _, _, _, heq⟩ | ⟨_, _, hh⟩
    · rw [heq]
      simp [updateCalls]
    · rw [hh]
      simp [updateCalls]
  · intro token ht htok hid hb
    rcases hcases with ⟨token2, ht2, _, _, _, _, heq⟩ | ⟨hnot, _, _⟩
    · rw [ht] at ht2
      injection ht2 with ht2
      rw [heq, ht2]
    · exfalso
      apply hnot
      refine ⟨token, ht, htok, hid, hnone, ?_⟩
      intro hmap
      exact hb (List.map_eq_nil_iff.mp hmap)
  · intro u hu
    rw [List.mem_map] at hu
    obtain ⟨ip, hip, rfl⟩ := hu
    rw [List.mem_filter] at hip
    refine ⟨rfl, hip.1, ?_⟩
    have hw := hip.2
    unfold writtenInWindow at hw
    cases hn : writtenPrefixLen ip with
    | none => simp [hn] at hw
    | some n =>
      rw [hn] at hw
      simp only [decide_eq_true_iff] at hw
      exact ⟨n, by simp [insertOf, hn], hw.1, hw.2⟩
  · intro ip _ n hn hout u hu heq2
    rw [List.mem_map] at hu
    obtain ⟨ip2, hip2, rfl⟩ := hu
    rw [List.mem_filter] at hip2
    have hw := hip2.2
    have hval : ip2 = ip := heq2
    rw [hval] at hw
    unfold writtenInWindow at hw
    rw [hn] at hw
    simp only [decide_eq_true_iff] at hw
    omega

/-- C1 at a desired list that extends the one of the specification by an
entry outside the window and a duplicate: `10.0.0.0/16`, `1.2.3.0/8`,
`8.8.8.0/24`, `10.0.0.0/16`.  The `/8` entry is dropped, the duplicate kept. -/
theorem C1_insert_batch_witness :
    (["10.0.0.0/16", "1.2.3.0/8", "8.8.8.0/24", "10.0.0.0/16"] : List String) ≠ []
    ∧ (∀ ip ∈ (["10.0.0.0/16", "1.2.3.0/8", "8.8.8.0/24", "10.0.0.0/16"] : List String),
        (prefixLen ip).isSome = true)
    ∧ ((NewClient acceptingService "set-1").InsertIPSet
          ["10.0.0.0/16", "1.2.3.0/8", "8.8.8.0/24", "10.0.0.0/16"] []).2 =
        [] ++ [Call.GetChangeToken,
         Call.UpdateIPSet
           { ChangeToken := "token-1", IPSetId := "set-1",
             Updates := ((["10.0.0.0/16", "1.2.3.0/8", "8.8.8.0/24", "10.0.0.0/16"] : List String).filter
                          writtenInWindow).map insertOf }]
    ∧ (NewClient acceptingService "set-1").InsertIPSet
          ["10.0.0.0/16", "1.2.3.0/8", "8.8.8.0/24", "10.0.0.0/16"] [] =
        (none,
         [Call.GetChangeToken,
          Call.UpdateIPSet
            { ChangeToken := "token-1", IPSetId := "set-1",
              Updates := [insertOf "10.0.0.0/16", insertOf "8.8.8.0/24",
                          insertOf "10.0.0.0/16"] }]) :=
  ⟨by decide, by decide,
   (C1_insert_batch_is_window_sublist (NewClient acceptingService "set-1") []
      ["10.0.0.0/16", "1.2.3.0/8", "8.8.8.0/24", "10.0.0.0/16"] (by decide) (by decide)).2.2.1
      "token-1" rfl (by decide) (by decide) (by decide),
   by decide⟩

/-- C2: `InsertIPSet` on the empty list returns the error made by
`errors.New("insert ip set field size of 0")` and sends no request at all:
the history of requests is unchanged, so no `GetChangeToken` and no
`UpdateIPSet` request is made. -/
theorem C2_insert_empty_is_error_without_call (c : Client) (h : History) :
    c.InsertIPSet [] h = (some (GoError.fundamental "insert ip set field size of 0"), h)
    ∧ (GoError.fundamental "insert ip set field size of 0").Error = "insert ip set field size of 0"
    ∧ tokenCalls (c.InsertIPSet [] h).2 = tokenCalls h
    ∧ updateCalls (c.InsertIPSet [] h).2 = updateCalls h := by
  refine ⟨rfl, rfl, rfl, rfl⟩

/-- C3: the batch `deleteIPList s current` is exactly the sub-list of the
entries of `current` that are not a contiguous substring of `s`, in the order
of `current`, each turned into a Delete update of the unchanged string; on
the example of the specification it is the single update deleting
`9.9.9.0/24`. -/
theorem C3_delete_batch_is_non_substrings (s : String) (current : List String) :
    deleteIPList s current
        = (current.filter (fun ip => decide (¬ IsSubstring ip s))).map
            (fun ip => { Action := ChangeAction.Delete,
                         Descriptor := { Type_ := IPSetDescriptorType.Ipv4, Value := ip } })
    ∧ deleteIPList "10.0.0.0/16|8.8.8.0/24" ["9.9.9.0/24"]
        = [{ Action := ChangeAction.Delete,
             Descriptor := { Type_ := IPSetDescriptorType.Ipv4, Value := "9.9.9.0/24" } }] := by
  refine ⟨?_, by decide⟩
  rw [deleteIPList_eq]
  rfl

/-- C4: when every current entry is a substring of the joined desired string
(in particular when there is no current entry), `DeleteIPSet` returns `nil`
and sends no request: the history of requests is unchanged. -/
theorem C4_delete_noop_when_all_contained (c : Client) (h : History)
    (desired current : List String)
    (hall : ∀ ip ∈ current, IsSubstring ip (Join desired "|")) :
    c.DeleteIPSet (Join desired "|") current h = (none, h)
    ∧ c.DeleteIPSet (Join desired "|") [] h = (none, h) := by
  have hempty : ∀ l : List String, (∀ ip ∈ l, IsSubstring ip (Join desired "|")) →
      deleteBatchSpec (Join desired "|") l = [] := by
    intro l hl
    unfold deleteBatchSpec
    rw [List.map_eq_nil_iff, List.filter_eq_nil_iff]
    intro ip hip
    simpa using hl ip hip
  constructor
  · rw [DeleteIPSet_eq, if_pos (hempty current hall)]
  · rw [DeleteIPSet_eq, if_pos (hempty [] (by simp))]

/-- C4 at desired `10.0.0.0/16`, `8.8.8.0/24` and current `8.8.8.0/24`,
`10.0.0.0/16`. -/
theorem C4_delete_noop_witness :
    (∀ ip ∈ (["8.8.8.0/24", "10.0.0.0/16"] : List String),
        IsSubstring ip (Join ["10.0.0.0/16", "8.8.8.0/24"] "|"))
    ∧ (NewClient acceptingService "set-1").DeleteIPSet (Join ["10.0.0.0/16", "8.8.8.0/24"] "|")
        ["8.8.8.0/24", "10.0.0.0/16"] [Call.GetChangeToken] = (none, [Call.GetChangeToken]) :=
  ⟨by decide,
   (C4_delete_noop_when_all_contained (NewClient acceptingService "set-1") [Call.GetChangeToken]
      ["10.0.0.0/16", "8.8.8.0/24"] ["8.8.8.0/24", "10.0.0.0/16"] (by decide)).1⟩

/-- C5, as stated, fails: on the desired list `10.0.0.0/16`, `bogus` the token
`token-1` is issued, and then the malformed entry ends the call; the token is
used in no `UpdateIPSet` request at all, not in exactly one. -/
theorem C5_issued_token_unused_counterexample :
    (["10.0.0.0/16", "bogus"] : List String) ≠ []
    ∧ acceptingService.GetChangeToken [] = .ok "token-1"
    ∧ ((NewClient acceptingService "set-1").InsertIPSet ["10.0.0.0/16", "bogus"] []).2
        = [Call.GetChangeToken]
    ∧ ¬ (updateCalls
          ((NewClient acceptingService "set-1").InsertIPSet ["10.0.0.0/16", "bogus"] []).2).length
        = 1 :=
  ⟨by decide, rfl, by decide, by decide⟩

/-- C5, amended: an `InsertIPSet` call on a non-empty list and a `DeleteIPSet`
call with at least one delete candidate each send exactly one
`GetChangeToken` request and at most one `UpdateIPSet` request.  The
`UpdateIPSet` request is sent, right after the token request and carrying the
token just issued, exactly when the token is issued, the SDK accepts the input
(token and set identifier not empty, batch not empty) and, for Insert, every
entry parses; the Insert batch is empty when no entry has its written prefix
length in the window.  In every other case the token request is the only
request of the call. -/
theorem C5_one_token_request_at_most_one_update (c : Client) (h : History)
    (desired : List String) (s : String) (current : List String)
    (hne : desired ≠ []) (hcand : deleteIPList s current ≠ []) :
    (tokenCalls ((c.InsertIPSet desired h).2.drop h.length) = 1
      ∧ (updateCalls ((c.InsertIPSet desired h).2.drop h.length)).length ≤ 1
      ∧ (∀ token, c.service.GetChangeToken h = .ok token → token ≠ "" → c.ipSetID ≠ "" →
          (∀ ip ∈ desired, (prefixLen ip).isSome = true) →
          desired.filter writtenInWindow ≠ [] →
          (c.InsertIPSet desired h).2 =
            h ++ [Call.GetChangeToken,
                  Call.UpdateIPSet
                    { ChangeToken := token, IPSetId := c.ipSetID,
                      Updates := (desired.filter writtenInWindow).map insertOf }])
      ∧ (((∀ token, c.service.GetChangeToken h ≠ .ok token)
            ∨ c.service.GetChangeToken h = .ok ""
            ∨ c.ipSetID = ""
            ∨ (∃ ip ∈ desired, prefixLen ip = none)
            ∨ desired.filter writtenInWindow = []) →
          (c.InsertIPSet desired h).2 = h ++ [Call.GetChangeToken]))
    ∧ (tokenCalls ((c.DeleteIPSet s current h).2.drop h.length) = 1
      ∧ (updateCalls ((c.DeleteIPSet s current h).2.drop h.length)).length ≤ 1
      ∧ (∀ token, c.service.GetChangeToken h = .ok token → token ≠ "" → c.ipSetID ≠ "" →
          (c.DeleteIPSet s current h).2 =
            h ++ [Call.GetChangeToken,
                  Call.UpdateIPSet { ChangeToken := token, IPSetId := c.ipSetID,
                                     Updates := deleteIPList s current }])
      ∧ (((∀ token, c.service.GetChangeToken h ≠ .ok token)
            ∨ c.service.GetChangeToken h = .ok ""
            ∨ c.ipSetID = "") →
          (c.DeleteIPSet s current h).2 = h ++ [Call.GetChangeToken])) := by
  constructor
  · have hcases := InsertIPSet_cases c h desired hne
    refine ⟨?_, ?_, ?_, ?_⟩
    · rcases hcases with ⟨token, _, _, _, _, _, heq⟩ | ⟨_, _, hh⟩
      · rw [heq]; simp [tokenCalls]
      · rw [hh]; simp [tokenCalls]
    · rcases hcases with ⟨token, _, _, _, _, _, heq⟩ | ⟨_, _, hh⟩
      · rw [heq]; simp [updateCalls]
      · rw [hh]; simp [updateCalls]
    · intro token ht htok hid hparse hb
      have hnone := (firstParseError_eq_none_iff desired).mpr hparse
      have hbatch := insertBatchSpec_eq_written desired hparse
      rcases hcases with ⟨token2, ht2, _, _, _, _, heq⟩ | ⟨hnot, _, _⟩
      · rw [ht] at ht2
        injection ht2 with ht2
        rw [heq, ht2, hbatch]
      · exfalso
        apply hnot
        refine ⟨token, ht, htok, hid, hnone, ?_⟩
        rw [hbatch]
        intro hmap
        exact hb (List.map_eq_nil_iff.mp hmap)
    · intro hor
      rcases hcases with ⟨token, ht, htok, hid, hnone, hb, _⟩ | ⟨_, _, hh⟩
      · exfalso
        rcases hor with hno | hempty | hid0 | hbad | hfil
        · exact hno token ht
        · rw [ht] at hempty
          injection hempty with hempty
          exact htok hempty
        · exact hid hid0
        · obtain ⟨_, _, _, _, _, _, hfe⟩ := firstParseError_of_bad desired hbad
          rw [hfe] at hnone
          cases hnone
        · have hparse := (firstParseError_eq_none_iff desired).mp hnone
          rw [insertBatchSpec_eq_written desired hparse, hfil] at hb
          exact hb rfl
      · exact hh
  · have hcases := DeleteIPSet_cases c h s current hcand
    refine ⟨?_, ?_, ?_, ?_⟩
    · rcases hcases with ⟨token, _, _, _, heq⟩ | ⟨_, _, hh⟩
      · rw [heq]; simp [tokenCalls]
      · rw [hh]; simp [tokenCalls]
    · rcases hcases with ⟨token, _, _, _, heq⟩ | ⟨_, _, hh⟩
      · rw [heq]; simp [updateCalls]
      · rw [hh]; simp [updateCalls]
    · intro token ht htok hid
      rcases hcases with ⟨token2, ht2, _, _, heq⟩ | ⟨hnot, _, _⟩
      · rw [ht] at ht2
        injection ht2 with ht2
        rw [heq, ht2]
      · exact absurd ⟨token, ht, htok, hid⟩ hnot
    · intro hor
      rcases hcases with ⟨token, ht, htok, hid, _⟩ | ⟨_, _, hh⟩
      · exfalso
        rcases hor with hno | hempty | hid0
        · exact hno token ht
        · rw [ht] at hempty
          injection hempty with hempty
          exact htok hempty
        · exact hid hid0
      · exact hh

/-- C5 (amended) at the desired list `10.0.0.0/16` and, for the Delete phase,
the joined string `10.0.0.0/16` with the current entry `9.9.9.0/24`; and at
the desired list `1.2.3.0/8`, whose only entry is outside the window, where
the issued token stays unused. -/
theorem C5_one_token_request_witness :
    (["10.0.0.0/16"] : List String) ≠ []
    ∧ deleteIPList "10.0.0.0/16" ["9.9.9.0/24"] ≠ []
    ∧ ((NewClient acceptingService "set-1").InsertIPSet ["10.0.0.0/16"] []).2
        = [] ++ [Call.GetChangeToken,
           Call.UpdateIPSet
             { ChangeToken := "token-1", IPSetId := "set-1",
               Updates := ((["10.0.0.0/16"] : List String).filter writtenInWindow).map insertOf }]
    ∧ ((NewClient acceptingService "set-1").DeleteIPSet "10.0.0.0/16" ["9.9.9.0/24"] []).2
        = [] ++ [Call.GetChangeToken,
           Call.UpdateIPSet { ChangeToken := "token-1", IPSetId := "set-1",
                              Updates := deleteIPList "10.0.0.0/16" ["9.9.9.0/24"] }]
    ∧ ((NewClient acceptingService "set-1").InsertIPSet ["1.2.3.0/8"] []).2
        = [] ++ [Call.GetChangeToken] :=
  ⟨by decide, by decide,
   (C5_one_token_request_at_most_one_update (NewClient acceptingService "set-1") []
      ["10.0.0.0/16"] "10.0.0.0/16" ["9.9.9.0/24"] (by decide) (by decide)).1.2.2.1
      "token-1" rfl (by decide) (by decide) (by decide) (by decide),
   (C5_one_token_request_at_most_one_update (NewClient acceptingService "set-1") []
      ["10.0.0.0/16"] "10.0.0.0/16" ["9.9.9.0/24"] (by decide) (by decide)).2.2.2.1
      "token-1" rfl (by decide) (by decide),
   (C5_one_token_request_at_most_one_update (NewClient acceptingService "set-1") []
      ["1.2.3.0/8"] "10.0.0.0/16" ["9.9.9.0/24"] (by decide) (by decide)).1.2.2.2
      (Or.inr (Or.inr (Or.inr (Or.inr (by decide)))))⟩

/-- C6 fails on the code: with the desired list `113.32.0.0/16` and the
current set `13.32.0.0/16`, the current entry equals no desired entry, yet it
occurs inside the joined desired string, so the Delete batch is empty and the
stale entry stays in the remote set. -/
theorem C6_stale_entry_survives_delete :
    "13.32.0.0/16" ∉ (["113.32.0.0/16"] : List String)
    ∧ Join ["113.32.0.0/16"] "|" = "113.32.0.0/16"
    ∧ Contains "113.32.0.0/16" "13.32.0.0/16" = true
    ∧ deleteIPList (Join ["113.32.0.0/16"] "|") ["13.32.0.0/16"] = []
    ∧ (NewClient acceptingService "set-1").DeleteIPSet (Join ["113.32.0.0/16"] "|")
        ["13.32.0.0/16"] [] = (none, []) := by
  decide

/-- C7, as stated, fails: on the desired list `bogus`, which `net.ParseCIDR`
rejects, against an endpoint whose token request fails, `InsertIPSet` returns
the error of the token request, not the parse error. -/
theorem C7_token_error_returned_counterexample :
    ParseCIDR "bogus" = .error (GoError.parseError "CIDR address" "bogus")
    ∧ ((NewClient noTokenService "set-1").InsertIPSet ["bogus"] []).1
        = some (GoError.generic "RequestError: send request failed")
    ∧ ((NewClient noTokenService "set-1").InsertIPSet ["bogus"] []).1
        ≠ some (GoError.parseError "CIDR address" "bogus") :=
  ⟨rfl, by decide, by decide⟩

/-- C7, amended: when some entry of the desired list does not parse,
`InsertIPSet` returns an error and sends no `UpdateIPSet` request (its only
request is the one for the change token); the error is the parse error of the
first entry that does not parse when the token is issued, and the error of
the token request when it is not. -/
theorem C7_malformed_entry_aborts_insert (c : Client) (h : History) (desired : List String)
    (hbad : ∃ ip ∈ desired, prefixLen ip = none) :
    (c.InsertIPSet desired h).1 ≠ none
    ∧ (c.InsertIPSet desired h).2 = h ++ [Call.GetChangeToken]
    ∧ updateCalls (c.InsertIPSet desired h).2 = updateCalls h
    ∧ (∀ err, c.service.GetChangeToken h = .error err → (c.InsertIPSet desired h).1 = some err)
    ∧ (∀ token, c.service.GetChangeToken h = .ok token →
        ∃ pre bad post, desired = pre ++ bad :: post
          ∧ (∀ x ∈ pre, (prefixLen x).isSome = true)
          ∧ prefixLen bad = none
          ∧ (c.InsertIPSet desired h).1 = some (GoError.parseError "CIDR address" bad)) := by
  have hne : desired ≠ [] := by
    intro hnil
    rw [hnil] at hbad
    simp at hbad
  obtain ⟨pre, bad, post, hsplit, hpre, hb, hfe⟩ := firstParseError_of_bad desired hbad
  have hI := InsertIPSet_eq c h desired hne
  rw [hfe] at hI
  cases ht : c.service.GetChangeToken h with
  | error err =>
    rw [ht] at hI
    simp only at hI
    rw [hI]
    refine ⟨by simp, rfl, by simp [updateCalls_append, updateCalls], ?_, ?_⟩
    · intro err2 he
      injection he with he
      rw [he]
    · intro token htok
      cases htok
  | ok token =>
    rw [ht] at hI
    simp only at hI
    rw [hI]
    refine ⟨by simp, rfl, by simp [updateCalls_append, updateCalls], ?_, ?_⟩
    · intro err2 he
      cases he
    · intro token2 _
      exact ⟨pre, bad, post, hsplit, hpre, hb, rfl⟩

/-- C7 (amended) at the desired list `8.8.8.0/24`, `8.8.8.0`, whose second
entry lacks the prefix length. -/
theorem C7_malformed_entry_witness :
    (∃ ip ∈ (["8.8.8.0/24", "8.8.8.0"] : List String), prefixLen ip = none)
    ∧ ((NewClient acceptingService "set-1").InsertIPSet ["8.8.8.0/24", "8.8.8.0"] []).2
        = [] ++ [Call.GetChangeToken]
    ∧ ((NewClient acceptingService "set-1").InsertIPSet ["8.8.8.0/24", "8.8.8.0"] []).1
        = some (GoError.parseError "CIDR address" "8.8.8.0") :=
  ⟨⟨"8.8.8.0", by decide, by decide⟩,
   (C7_malformed_entry_aborts_insert (NewClient acceptingService "set-1") []
      ["8.8.8.0/24", "8.8.8.0"] ⟨"8.8.8.0", by decide, by decide⟩).2.1,
   by decide⟩

/-- C8: `checkErr` maps `nil` to `nil`; a structured error whose code is one
of the nine listed ones comes back wrapped by `errors.Wrap` with that same
code as the message, so its text is the code, `": "` and the text of the
original error, and its cause is the original error; a structured error with
any other code and every unstructured error come back unchanged.  Hence the
result is non-`nil` exactly when the argument is. -/
theorem C8_checkErr_classification :
    checkErr none = none
    ∧ listedCodes =
        ["WAFStaleDataException", "WAFInternalErrorException", "WAFInvalidAccountException",
         "WAFInvalidOperationException", "WAFInvalidParameterException",
         "WAFNonexistentContainerException", "WAFNonexistentItemException",
         "WAFReferencedItemException", "WAFLimitsExceededException"]
    ∧ (∀ text code message, code ∈ listedCodes →
        checkErr (some (GoError.awserr text code message))
            = some (GoError.wrapped (GoError.awserr text code message) code)
          ∧ (GoError.wrapped (GoError.awserr text code message) code).Error
              = code ++ ": " ++ (GoError.awserr text code message).Error
          ∧ (GoError.wrapped (GoError.awserr text code message) code).Cause
              = GoError.awserr text code message)
    ∧ (∀ text code message, code ∉ listedCodes →
        checkErr (some (GoError.awserr text code message))
          = some (GoError.awserr text code message))
    ∧ (∀ e, (∀ text code message, e ≠ GoError.awserr text code message) →
        checkErr (some e) = some e)
    ∧ (∀ err, checkErr err ≠ none ↔ err ≠ none)
    ∧ checkErr (some limitsExceeded)
        = some (GoError.wrapped limitsExceeded "WAFLimitsExceededException") := by
  refine ⟨rfl, rfl, ?_, ?_, ?_, ?_, rfl⟩
  · intro text code message hin
    refine ⟨?_, rfl, rfl⟩
    rw [checkErr_awserr, if_pos hin]
  · intro text code message hin
    rw [checkErr_awserr, if_neg hin]
  · intro e hne
    exact checkErr_not_awserr e hne
  · intro err
    rw [Ne, Ne, checkErr_eq_none_iff]

/-- C9, as stated, fails: on the desired list `1.2.3.0/8`, against an endpoint
that issues a token and accepts every update, `InsertIPSet` returns an error
and no update request reaches the endpoint: the SDK refuses the empty
`Updates` list with `InvalidParameter` before anything is sent. -/
theorem C9_empty_batch_refused_counterexample :
    prefixLen "1.2.3.0/8" = some 8
    ∧ (∀ h input, acceptingService.UpdateIPSet h input = none)
    ∧ (NewClient acceptingService "set-1").InsertIPSet ["1.2.3.0/8"] []
        = (some (invalidParams "UpdateIPSetInput" ["Updates"]), [Call.GetChangeToken])
    ∧ (invalidParams "UpdateIPSetInput" ["Updates"]).Error
        = "InvalidParameter: 1 validation error(s) found.\n- minimum field size of 1, UpdateIPSetInput.Updates.\n"
    ∧ updateCalls ((NewClient acceptingService "set-1").InsertIPSet ["1.2.3.0/8"] []).2 = []
    ∧ ((NewClient acceptingService "set-1").InsertIPSet ["1.2.3.0/8"] []).1 ≠ none :=
  ⟨by decide, fun _ _ => rfl, by decide, by decide, by decide, by decide⟩

/-- C9, amended: on a non-empty desired list all of whose entries parse with a
written prefix length outside `[16,32]`, `InsertIPSet` still requests a change
token and has no error of its own for the filtered-out list; it calls the
SDK's `UpdateIPSet` with the empty batch, which the SDK refuses before
sending.  So the token request is the only request, no update reaches the
endpoint, and the call returns an error: the error of the token request when
that fails, the SDK's `InvalidParameter` error, unchanged by `checkErr`, when
the token is issued. -/
theorem C9_all_filtered_requests_token_then_refused (c : Client) (h : History)
    (desired : List String) (hne : desired ≠ [])
    (hout : ∀ ip ∈ desired, (prefixLen ip).isSome = true
      ∧ ∃ n, writtenPrefixLen ip = some n ∧ (n < 16 ∨ 32 < n)) :
    (c.InsertIPSet desired h).2 = h ++ [Call.GetChangeToken]
    ∧ updateCalls (c.InsertIPSet desired h).2 = updateCalls h
    ∧ (c.InsertIPSet desired h).1 ≠ none
    ∧ (∀ err, c.service.GetChangeToken h = .error err → (c.InsertIPSet desired h).1 = some err)
    ∧ (∀ token, c.service.GetChangeToken h = .ok token →
        (c.InsertIPSet desired h).1
            = UpdateIPSetInput.Validate
                { ChangeToken := token, IPSetId := c.ipSetID, Updates := [] }
          ∧ ∃ text message,
              (c.InsertIPSet desired h).1 = some (GoError.awserr text "InvalidParameter" message))
    ∧ (∀ token, c.service.GetChangeToken h = .ok token → token ≠ "" → c.ipSetID ≠ "" →
        (c.InsertIPSet desired h).1 = some (invalidParams "UpdateIPSetInput" ["Updates"])) := by
  have hparse : ∀ ip ∈ desired, (prefixLen ip).isSome = true := fun ip hip => (hout ip hip).1
  have hnone : firstParseError desired = none := (firstParseError_eq_none_iff desired).mpr hparse
  have hbatch : insertBatchSpec desired = [] := by
    rw [insertBatchSpec_eq_written desired hparse, List.map_eq_nil_iff, List.filter_eq_nil_iff]
    intro ip hip
    obtain ⟨_, n, hn, hw⟩ := hout ip hip
    unfold writtenInWindow
    rw [hn]
    simp only [decide_eq_true_iff]
    omega
  have hI := InsertIPSet_eq c h desired hne
  rw [hnone, hbatch] at hI
  cases ht : c.service.GetChangeToken h with
  | error err =>
    rw [ht] at hI
    simp only at hI
    rw [hI]
    refine ⟨rfl, by simp [updateCalls_append, updateCalls], by simp, ?_, ?_, ?_⟩
    · intro err2 he
      injection he with he
      rw [he]
    · intro token htok
      cases htok
    · intro token htok
      cases htok
  | ok token =>
    rw [ht] at hI
    simp only at hI
    rcases updateOutcome_cases c token [] (h ++ [Call.GetChangeToken])
      with ⟨hv, _⟩ | ⟨_, hout2, hval⟩
    · exact absurd rfl hv.2.2
    · rw [hI, hout2]
      refine ⟨rfl, by simp [updateCalls_append, updateCalls], hval, ?_, ?_, ?_⟩
      · intro err he
        cases he
      · intro token2 htok
        injection htok with htok
        subst htok
        refine ⟨rfl, ?_⟩
        cases hv2 : UpdateIPSetInput.Validate
            { ChangeToken := token, IPSetId := c.ipSetID, Updates := [] } with
        | none => exact absurd hv2 hval
        | some e =>
          obtain ⟨text, message, he⟩ := (Validate_some hv2).1
          exact ⟨text, message, by rw [he]⟩
      · intro token2 htok hne2 hid
        injection htok with htok
        subst htok
        have hl1 : ¬ token.length < 1 := fun hl => hne2 ((string_length_lt_one _).mp hl)
        have hl2 : ¬ c.ipSetID.length < 1 := fun hl => hid ((string_length_lt_one _).mp hl)
        simp [UpdateIPSetInput.Validate, hl1, hl2]

/-- C9 (amended) at the desired list `1.2.3.0/8` of the specification. -/
theorem C9_all_filtered_witness :
    (["1.2.3.0/8"] : List String) ≠ []
    ∧ writtenPrefixLen "1.2.3.0/8" = some 8
    ∧ ((NewClient acceptingService "set-1").InsertIPSet ["1.2.3.0/8"] []).2
        = [] ++ [Call.GetChangeToken]
    ∧ ((NewClient acceptingService "set-1").InsertIPSet ["1.2.3.0/8"] []).1
        = some (invalidParams "UpdateIPSetInput" ["Updates"]) :=
  ⟨by decide, by decide,
   (C9_all_filtered_requests_token_then_refused (NewClient acceptingService "set-1") []
      ["1.2.3.0/8"] (by decide)
      (fun ip hip => by
        rw [List.mem_singleton.mp hip]
        exact ⟨by decide, 8, by decide, Or.inl (by decide)⟩)).1,
   (C9_all_filtered_requests_token_then_refused (NewClient acceptingService "set-1") []
      ["1.2.3.0/8"] (by decide)
      (fun ip hip => by
        rw [List.mem_singleton.mp hip]
        exact ⟨by decide, 8, by decide, Or.inl (by decide)⟩)).2.2.2.2.2
      "token-1" rfl (by decide) (by decide)⟩

/-- C10: in a run that reaches the Insert phase, an error returned by
`InsertIPSet` ends the run with `log.Fatal` at once: the requests of the run
are those of the Insert phase alone, among them no `GetIPSet` request, no
update other than Insert updates, at most one token request and at most one
`UpdateIPSet` request.  Likewise, when the Insert phase succeeds and
`GetIPSet` fails, the run ends right after that request: no token request and
no `UpdateIPSet` request follows it. -/
theorem C10_failed_insert_or_read_ends_run (svc : Service) (id : String)
    (ipRange : AWSIPRange) (hid : id ≠ "") :
    (∀ err hI,
        (NewClient svc id).InsertIPSet (ipRange.filterIPAddressesFromService TargetService) []
          = (some err, hI) →
        main svc id (.ok (.ok ipRange)) = (Exit.Fatal err.Error, hI)
          ∧ (∀ input, Call.GetIPSet input ∉ hI)
          ∧ (∀ input ∈ updateCalls hI, ∀ u ∈ input.Updates, u.Action = ChangeAction.Insert)
          ∧ tokenCalls hI ≤ 1
          ∧ (updateCalls hI).length ≤ 1)
    ∧ (∀ hI err,
        (NewClient svc id).InsertIPSet (ipRange.filterIPAddressesFromService TargetService) []
          = (none, hI) →
        svc.GetIPSet hI { IPSetId := id } = .error err →
        main svc id (.ok (.ok ipRange))
            = (Exit.Fatal err.Error, hI ++ [Call.GetIPSet { IPSetId := id }])
          ∧ tokenCalls (main svc id (.ok (.ok ipRange))).2 = tokenCalls hI
          ∧ updateCalls (main svc id (.ok (.ok ipRange))).2 = updateCalls hI) := by
  constructor
  · intro err hI hins
    have hmain : main svc id (.ok (.ok ipRange)) = (Exit.Fatal err.Error, hI) := by
      unfold main
      simp only [hid, if_false, hins]
    have hhist := InsertIPSet_history (NewClient svc id)
      [] (ipRange.filterIPAddressesFromService TargetService)
    rw [hins] at hhist
    simp only [List.nil_append] at hhist
    refine ⟨hmain, ?_⟩
    rcases hhist with hh | hh | ⟨token, hh⟩
    · rw [hh]
      simp [updateCalls, tokenCalls]
    · rw [hh]
      simp [updateCalls, tokenCalls]
    · rw [hh]
      refine ⟨by simp, ?_, by simp [tokenCalls], by simp [updateCalls]⟩
      intro input hin u hu
      simp only [updateCalls, List.mem_singleton] at hin
      rw [hin] at hu
      exact insertBatchSpec_action _ u hu
  · intro hI err hins hget
    have hmain : main svc id (.ok (.ok ipRange))
        = (Exit.Fatal err.Error, hI ++ [Call.GetIPSet { IPSetId := id }]) := by
      have hread : (NewClient svc id).GetIPSet hI
          = (.error err, hI ++ [Call.GetIPSet { IPSetId := id }]) := by
        rw [GetIPSet_eq (NewClient svc id) hI hid]
        simp only [NewClient, hget]
      unfold main
      simp only [hid, if_false, hins, hread]
    rw [hmain]
    refine ⟨rfl, ?_, ?_⟩
    · rw [tokenCalls_append]
      simp [tokenCalls]
    · rw [updateCalls_append]
      simp [updateCalls]

/-- C10 on the sample document against an endpoint that answers the insert
with `WAFLimitsExceededException`: the run ends after the token request and
the one Insert update. -/
theorem C10_limits_exceeded_witness :
    ("set-1" : String) ≠ ""
    ∧ main limitsService "set-1" (.ok (.ok sampleRange)) =
        (Exit.Fatal "WAFLimitsExceededException: WAFLimitsExceededException: too many descriptors",
         [Call.GetChangeToken,
          Call.UpdateIPSet { ChangeToken := "token-1", IPSetId := "set-1",
                             Updates := [insertOf "10.0.0.0/16", insertOf "8.8.8.0/24"] }]) :=
  ⟨by decide,
   ((C10_failed_insert_or_read_ends_run limitsService "set-1" sampleRange (by decide)).1
      (GoError.wrapped limitsExceeded "WAFLimitsExceededException")
      [Call.GetChangeToken,
       Call.UpdateIPSet { ChangeToken := "token-1", IPSetId := "set-1",
                          Updates := [insertOf "10.0.0.0/16", insertOf "8.8.8.0/24"] }]
      (by decide)).1⟩

/-- C12: `filterIPAddressesFromService service` is exactly the list of the
`ip_prefix` values of the prefixes whose `service` field equals `service` as a
string, in the order of the document and with duplicates kept; no value of a
prefix of another service is taken.  On the sample document the service
`CLOUDFRONT` gives its three prefixes and the lower-case name gives none. -/
theorem C12_filter_by_service_is_filter_map (a : AWSIPRange) (service : String) :
    a.filterIPAddressesFromService service
        = (a.Prefixes.filter (fun p => decide (p.Service = service))).map (fun p => p.IPPrefix)
    ∧ (a.filterIPAddressesFromService service).length
        = (a.Prefixes.filter (fun p => decide (p.Service = service))).length
    ∧ sampleRange.filterIPAddressesFromService "CLOUDFRONT"
        = ["10.0.0.0/16", "8.8.8.0/24", "1.2.3.0/8"]
    ∧ sampleRange.filterIPAddressesFromService "cloudfront" = [] := by
  have h : a.filterIPAddressesFromService service
      = (a.Prefixes.filter (fun p => decide (p.Service = service))).map (fun p => p.IPPrefix) := by
    unfold AWSIPRange.filterIPAddressesFromService
    rw [foldl_keep_append (fun p : Prefix => p.Service = service) (fun p => p.IPPrefix)]
    rfl
  refine ⟨h, ?_, by decide, by decide⟩
  rw [h, List.length_map]

/-- C13: no update of the batch `deleteIPList (strings.Join(desired, "|"))
current` deletes an element of `desired`: the value of every update of the
batch is different from every desired entry. -/
theorem C13_delete_batch_spares_desired (desired current : List String) :
    ∀ u ∈ deleteIPList (Join desired "|") current, u.Descriptor.Value ∉ desired := by
  intro u hu hmem
  rw [deleteIPList_eq] at hu
  unfold deleteBatchSpec at hu
  rw [List.mem_map] at hu
  obtain ⟨ip, hip, rfl⟩ := hu
  rw [List.mem_filter] at hip
  have hnot : ¬ IsSubstring ip (Join desired "|") := by simpa using hip.2
  apply hnot
  exact infix_Join "|" ip.data desired ⟨ip, hmem, List.infix_refl _⟩

/-- C13 at desired `10.0.0.0/16`, `8.8.8.0/24` and current `9.9.9.0/24`,
`10.0.0.0/16`: the one update of the batch deletes `9.9.9.0/24`. -/
theorem C13_delete_batch_spares_desired_witness :
    deleteOf "9.9.9.0/24" ∈ deleteIPList (Join ["10.0.0.0/16", "8.8.8.0/24"] "|")
        ["9.9.9.0/24", "10.0.0.0/16"]
    ∧ "9.9.9.0/24" ∉ (["10.0.0.0/16", "8.8.8.0/24"] : List String) :=
  ⟨by decide,
   C13_delete_batch_spares_desired ["10.0.0.0/16", "8.8.8.0/24"] ["9.9.9.0/24", "10.0.0.0/16"]
     (deleteOf "9.9.9.0/24") (by decide)⟩

/-- C14: for a non-empty entry without the character `|`, being a substring of
`strings.Join(desired, "|")` is the same as being a substring of at least one
element of `desired`; so `deleteIPList` makes it a delete candidate exactly
when it is a substring of no element of `desired`. -/
theorem C14_bar_separates_desired_entries (desired : List String) (ip : String)
    (hne : ip ≠ "") (hbar : '|' ∉ ip.data) :
    (IsSubstring ip (Join desired "|") ↔ ∃ d ∈ desired, IsSubstring ip d)
    ∧ (Contains (Join desired "|") ip = true ↔ ∃ d ∈ desired, IsSubstring ip d)
    ∧ (deleteIPList (Join desired "|") [ip] = [deleteOf ip] ↔ ∀ d ∈ desired, ¬ IsSubstring ip d)
    ∧ (deleteIPList (Join desired "|") [ip] = [] ↔ ∃ d ∈ desired, IsSubstring ip d) := by
  have hdata : ip.data ≠ [] := by
    intro h0
    apply hne
    cases ip with
    | mk data =>
      simp only at h0
      rw [h0]
  have hiff : IsSubstring ip (Join desired "|") ↔ ∃ d ∈ desired, IsSubstring ip d := by
    constructor
    · intro h
      exact infix_Join_bar hdata hbar desired h
    · intro h
      exact infix_Join "|" ip.data desired h
  have hbatch : deleteIPList (Join desired "|") [ip]
      = if IsSubstring ip (Join desired "|") then [] else [deleteOf ip] := by
    rw [deleteIPList_eq]
    unfold deleteBatchSpec
    by_cases hs : IsSubstring ip (Join desired "|")
    · simp [hs]
    · simp [hs]
  refine ⟨hiff, ?_, ?_, ?_⟩
  · rw [Contains_iff, hiff]
  · rw [hbatch, ← not_exists_mem_iff ip desired, ← hiff]
    by_cases hs : IsSubstring ip (Join desired "|")
    · simp [hs]
    · simp [hs]
  · rw [hbatch, ← hiff]
    by_cases hs : IsSubstring ip (Join desired "|")
    · simp [hs]
    · simp [hs]

/-- C14 at desired `10.0.0.0/16`, `8.8.8.0/24` and the entry `9.9.9.0/24`; the
text `0/16|8.8`, which contains `|`, shows what the condition excludes: it
lies inside the joined string and inside no desired entry. -/
theorem C14_bar_separates_witness :
    ("9.9.9.0/24" : String) ≠ ""
    ∧ '|' ∉ ("9.9.9.0/24" : String).data
    ∧ (deleteIPList (Join ["10.0.0.0/16", "8.8.8.0/24"] "|") ["9.9.9.0/24"]
          = [deleteOf "9.9.9.0/24"]
        ↔ ∀ d ∈ (["10.0.0.0/16", "8.8.8.0/24"] : List String), ¬ IsSubstring "9.9.9.0/24" d)
    ∧ IsSubstring "0/16|8.8" (Join ["10.0.0.0/16", "8.8.8.0/24"] "|")
    ∧ ¬ ∃ d ∈ (["10.0.0.0/16", "8.8.8.0/24"] : List String), IsSubstring "0/16|8.8" d :=
  ⟨by decide, by decide,
   (C14_bar_separates_desired_entries ["10.0.0.0/16", "8.8.8.0/24"] "9.9.9.0/24"
      (by decide) (by decide)).2.2.1,
   by decide, by decide⟩

/-- C11, as stated, fails: the run on the sample document against an endpoint
whose set holds only `10.0.0.0/16` completes successfully and submits one
update batch, the Insert batch; the Delete phase has no candidate and sends
nothing. -/
theorem C11_single_batch_run_counterexample :
    main containedService "set-1" (.ok (.ok sampleRange)) =
        (Exit.Done,
         [Call.GetChangeToken,
          Call.UpdateIPSet { ChangeToken := "token-1", IPSetId := "set-1",
                             Updates := [insertOf "10.0.0.0/16", insertOf "8.8.8.0/24"] },
          Call.GetIPSet { IPSetId := "set-1" }])
    ∧ (updateCalls (main containedService "set-1" (.ok (.ok sampleRange))).2).length = 1
    ∧ ¬ (updateCalls (main containedService "set-1" (.ok (.ok sampleRange))).2).length = 2 := by
  decide

/-- C11, amended: a run that completes successfully sends, in this order, one
token request, one `UpdateIPSet` request whose batch holds only Insert
updates, one `GetIPSet` request, and then either nothing more, when the set
read back yields no delete candidate, or one more token request and one
`UpdateIPSet` request whose batch, the non-empty list of delete candidates,
holds only Delete updates. -/
theorem C11_successful_run_one_insert_at_most_one_delete (svc : Service) (id : String)
    (resp : Except GoError (Except GoError AWSIPRange)) (hist : History)
    (hdone : main svc id resp = (Exit.Done, hist)) :
    ∃ ipRange token descriptors,
      resp = .ok (.ok ipRange)
      ∧ svc.GetIPSet
          [Call.GetChangeToken,
           Call.UpdateIPSet
             { ChangeToken := token, IPSetId := id,
               Updates := ((ipRange.filterIPAddressesFromService TargetService).filter
                            inWindow).map insertOf }]
          { IPSetId := id } = .ok descriptors
      ∧ ((deleteIPList (Join (ipRange.filterIPAddressesFromService TargetService) "|")
              (descriptors.map (fun d => d.Value)) = []
            ∧ hist =
              [Call.GetChangeToken,
               Call.UpdateIPSet
                 { ChangeToken := token, IPSetId := id,
                   Updates := ((ipRange.filterIPAddressesFromService TargetService).filter
                                inWindow).map insertOf },
               Call.GetIPSet { IPSetId := id }])
          ∨ (deleteIPList (Join (ipRange.filterIPAddressesFromService TargetService) "|")
                (descriptors.map (fun d => d.Value)) ≠ []
            ∧ ∃ token2, hist =
              [Call.GetChangeToken,
               Call.UpdateIPSet
                 { ChangeToken := token, IPSetId := id,
                   Updates := ((ipRange.filterIPAddressesFromService TargetService).filter
                                inWindow).map insertOf },
               Call.GetIPSet { IPSetId := id },
               Call.GetChangeToken,
               Call.UpdateIPSet
                 { ChangeToken := token2, IPSetId := id,
                   Updates :=
                     deleteIPList (Join (ipRange.filterIPAddressesFromService TargetService) "|")
                       (descriptors.map (fun d => d.Value)) }]))
      ∧ (∀ u ∈ ((ipRange.filterIPAddressesFromService TargetService).filter inWindow).map
            insertOf, u.Action = ChangeAction.Insert)
      ∧ (∀ u ∈ deleteIPList (Join (ipRange.filterIPAddressesFromService TargetService) "|")
            (descriptors.map (fun d => d.Value)), u.Action = ChangeAction.Delete) := by
  unfold main at hdone
  by_cases hid : id = ""
  · simp [hid] at hdone
  · simp only [hid, if_false] at hdone
    cases resp with
    | error err => simp at hdone
    | ok inner =>
      cases inner with
      | error err => simp at hdone
      | ok ipRange =>
        simp only at hdone
        cases hins : (NewClient svc id).InsertIPSet
            (ipRange.filterIPAddressesFromService TargetService) [] with
        | mk e1 h1 =>
          rw [hins] at hdone
          cases e1 with
          | some err => simp at hdone
          | none =>
            simp only at hdone
            obtain ⟨token, _, hh1⟩ := InsertIPSet_ok hins
            rw [GetIPSet_eq (NewClient svc id) h1 hid] at hdone
            cases hget : (NewClient svc id).service.GetIPSet h1
                { IPSetId := (NewClient svc id).ipSetID } with
            | error err =>
              rw [hget] at hdone
              simp at hdone
            | ok descriptors =>
              rw [hget] at hdone
              simp only at hdone
              cases hdel : (NewClient svc id).DeleteIPSet
                  (Join (ipRange.filterIPAddressesFromService TargetService) "|")
                  (descriptors.map (fun d => d.Value))
                  (h1 ++ [Call.GetIPSet { IPSetId := (NewClient svc id).ipSetID }]) with
              | mk e3 h3 =>
                rw [hdel] at hdone
                cases e3 with
                | some err => simp at hdone
                | none =>
                  simp only [Prod.mk.injEq, true_and] at hdone
                  have hget2 : svc.GetIPSet h1 { IPSetId := id } = .ok descriptors := hget
                  rw [hh1] at hget2
                  refine ⟨ipRange, token, descriptors, rfl, hget2, ?_,
                    insertBatchSpec_action _, deleteIPList_action _ _⟩
                  rcases DeleteIPSet_ok hdel with ⟨hb, hh3⟩ | ⟨hb, token2, _, hh3⟩
                  · left
                    refine ⟨hb, ?_⟩
                    rw [← hdone, hh3, hh1]
                    rfl
                  · right
                    refine ⟨hb, token2, ?_⟩
                    rw [← hdone, hh3, hh1]
                    rfl

/-- C11 (amended) on the sample document against the endpoint that holds
`9.9.9.0/24` and `10.0.0.0/16`: the run completes with five requests, the last
one deleting `9.9.9.0/24`. -/
theorem C11_successful_run_witness :
    main acceptingService "set-1" (.ok (.ok sampleRange)) =
        (Exit.Done,
         [Call.GetChangeToken,
          Call.UpdateIPSet { ChangeToken := "token-1", IPSetId := "set-1",
                             Updates := [insertOf "10.0.0.0/16", insertOf "8.8.8.0/24"] },
          Call.GetIPSet { IPSetId := "set-1" },
          Call.GetChangeToken,
          Call.UpdateIPSet { ChangeToken := "token-1", IPSetId := "set-1",
                             Updates := [deleteOf "9.9.9.0/24"] }])
    ∧ ∃ ipRange token descriptors,
        (Except.ok (Except.ok sampleRange) : Except GoError (Except GoError AWSIPRange))
          = .ok (.ok ipRange)
        ∧ acceptingService.GetIPSet
            [Call.GetChangeToken,
             Call.UpdateIPSet
               { ChangeToken := token, IPSetId := "set-1",
                 Updates := ((ipRange.filterIPAddressesFromService TargetService).filter
                              inWindow).map insertOf }]
            { IPSetId := "set-1" } = .ok descriptors :=
  ⟨by decide,
   (C11_successful_run_one_insert_at_most_one_delete acceptingService "set-1"
      (.ok (.ok sampleRange)) _ (by decide : main acceptingService "set-1"
        (.ok (.ok sampleRange)) = (Exit.Done,
         [Call.GetChangeToken,
          Call.UpdateIPSet { ChangeToken := "token-1", IPSetId := "set-1",
                             Updates := [insertOf "10.0.0.0/16", insertOf "8.8.8.0/24"] },
          Call.GetIPSet { IPSetId := "set-1" },
          Call.GetChangeToken,
          Call.UpdateIPSet { ChangeToken := "token-1", IPSetId := "set-1",
                             Updates := [deleteOf "9.9.9.0/24"] }]))).imp
     (fun _ h => h.imp (fun _ h => h.imp (fun _ h => ⟨h.1, h.2.1⟩)))⟩

/-- C15 fails on the code: `net.ParseCIDR` accepts the IPv6 prefix
`2001:db8::/32` (its address is not an IPv4 address, its prefix length is 32),
and `InsertIPSet` submits it in an update whose descriptor type is `IPV4`. -/
theorem C15_ipv6_prefix_submitted_as_ipv4 :
    splitSlash ("2001:db8::/32" : String).data
        = some (("2001:db8::" : String).data, ("32" : String).data)
    ∧ parseIPv4 ("2001:db8::" : String).data = none
    ∧ parseIPv6 ("2001:db8::" : String).data
        = some [0x20, 0x01, 0x0d, 0xb8, 0, 0, 0, 0, 0, 0, 0, 0, 0, 0, 0, 0]
    ∧ prefixLen "2001:db8::/32" = some 32
    ∧ (NewClient acceptingService "set-1").InsertIPSet ["2001:db8::/32"] [] =
        (none,
         [Call.GetChangeToken,
          Call.UpdateIPSet
            { ChangeToken := "token-1", IPSetId := "set-1",
              Updates := [{ Action := ChangeAction.Insert,
                            Descriptor := { Type_ := IPSetDescriptorType.Ipv4,
                                            Value := "2001:db8::/32" } }] }]) := by
  decide

end WafCfIpset
